import Mathlib

/-!
Verification of the kibitz session-tracking-and-dispatch core against its
specification.  The TypeScript sources are shallowly embedded: strings are
`String`/`List Char`, JavaScript regular expressions are encoded in a small
executable regex calculus (`Reg`), the commentary engine's async interleaving
is a labelled transition system whose atomic steps are the synchronous
segments between `await` points, and filesystem reads are passed in as
explicit values.
-/

namespace Kibitz

abbrev Chars := List Char

/-- `\w` of JavaScript regular expressions: ASCII letters, digits, underscore. -/
def isWordChar (c : Char) : Bool :=
  (('a' ≤ c && c ≤ 'z') || ('A' ≤ c && c ≤ 'Z') || ('0' ≤ c && c ≤ '9') || c = '_')

/-- `\s` of JavaScript regular expressions (whitespace class). -/
def isWsChar (c : Char) : Bool := c.isWhitespace

/-- Prefix test on character lists (`needle` against `hay`). -/
def isPrefixL : Chars → Chars → Bool
  | [], _ => true
  | _ :: _, [] => false
  | a :: as, b :: bs => a = b && isPrefixL as bs

/-- Substring test on character lists: JavaScript `String.prototype.includes`. -/
def hasSubstr : Chars → Chars → Bool
  | l, n =>
    isPrefixL n l ||
      (match l with
       | [] => false
       | _ :: t => hasSubstr t n)

/-- JavaScript `hay.includes(needle)`. -/
def strIncludes (hay needle : String) : Bool := hasSubstr hay.data needle.data

/-- Drop trailing whitespace. -/
def trimTrail : Chars → Chars
  | [] => []
  | c :: cs =>
    let r := trimTrail cs
    if r = [] && isWsChar c then [] else c :: r

/-- JavaScript `s.trim()` (leading and trailing whitespace removed),
defined directly on the character list so that it can be reasoned about. -/
def jsTrim (s : String) : String := String.mk (trimTrail (s.data.dropWhile isWsChar))

/-- JavaScript `s.toLowerCase()`, defined by mapping `Char.toLower` over the
characters (the core `String.toLower` is opaque to kernel reduction). -/
def jsToLower (s : String) : String := String.mk (s.data.map Char.toLower)

/-- Split a character list at every occurrence of `sep`. -/
def splitOnChar (sep : Char) : Chars → List Chars
  | [] => [[]]
  | c :: cs =>
    let r := splitOnChar sep cs
    if c = sep then [] :: r
    else
      match r with
      | [] => [[c]]
      | h :: t => (c :: h) :: t

/-- JavaScript `s.split(sep)` for a one-character separator. -/
def jsSplit (s : String) (sep : Char) : List String := (splitOnChar sep s.data).map String.mk

/-- JavaScript `hay.startsWith(needle)`. -/
def startsWithStr (hay needle : String) : Bool := isPrefixL needle.data hay.data

/-- Executable encoding of the JavaScript regular expressions used by the
sources.  All quantifiers in those patterns apply to single-character
classes, so character-class star and bounded repetition suffice. -/
inductive Reg where
  | eps : Reg
  | ch : (Char → Bool) → Reg
  | cat : Reg → Reg → Reg
  | alt : Reg → Reg → Reg
  | chStar : (Char → Bool) → Reg
  | chRep : (Char → Bool) → Nat → Nat → Reg
  | wb : Reg
  | bos : Reg
  | eos : Reg

def isWordOpt : Option Char → Bool
  | none => false
  | some c => isWordChar c

/-- `\b`: the word-ness of the previous character differs from that of the
next character (absent characters count as non-word). -/
def atBoundary (prev : Option Char) (l : Chars) : Bool :=
  isWordOpt prev != isWordOpt l.head?

/-- All ways for a character-class star to consume a prefix of `l`;
the returned pairs are (last consumed character, remaining input). -/
def starSplits (p : Char → Bool) : Option Char → Chars → List (Option Char × Chars)
  | prev, [] => [(prev, [])]
  | prev, c :: cs => (prev, c :: cs) :: (if p c then starSplits p (some c) cs else [])

/-- All ways for a bounded character-class repetition (between `lo` and `hi`
characters) to consume a prefix of `l`. -/
def repSplits (p : Char → Bool) : Nat → Nat → Option Char → Chars → List (Option Char × Chars)
  | 0, 0, prev, l => [(prev, l)]
  | 0, _ + 1, prev, [] => [(prev, [])]
  | 0, hi + 1, prev, c :: cs =>
      (prev, c :: cs) :: (if p c then repSplits p 0 hi (some c) cs else [])
  | _ + 1, 0, _, _ => []
  | _ + 1, _ + 1, _, [] => []
  | lo + 1, hi + 1, prev, c :: cs =>
      if p c then repSplits p lo hi (some c) cs else []

/-- Backtracking matcher: every (last consumed character, remaining input)
pair reachable by matching `r` at the start of `l`, with `prev` the character
immediately before `l` (for `\b`, `^`). -/
def mrun : Reg → Option Char → Chars → List (Option Char × Chars)
  | .eps, prev, l => [(prev, l)]
  | .ch _, _, [] => []
  | .ch p, _, c :: cs => if p c then [(some c, cs)] else []
  | .cat a b, prev, l => (mrun a prev l).flatMap fun pr => mrun b pr.1 pr.2
  | .alt a b, prev, l => mrun a prev l ++ mrun b prev l
  | .chStar p, prev, l => starSplits p prev l
  | .chRep p lo hi, prev, l => repSplits p lo hi prev l
  | .wb, prev, l => if atBoundary prev l then [(prev, l)] else []
  | .bos, prev, l => if prev.isNone then [(prev, l)] else []
  | .eos, prev, l => if l.isEmpty then [(prev, l)] else []

/-- Does `r` match starting at some position of `l`?  `prev` is the character
before `l` in the full subject string. -/
def rsearch (r : Reg) : Option Char → Chars → Bool
  | prev, l =>
    !(mrun r prev l).isEmpty ||
      (match l with
       | [] => false
       | c :: cs => rsearch r (some c) cs)

/-- JavaScript `r.test(s)` for the encoded pattern. -/
def rtest (r : Reg) (s : String) : Bool := rsearch r none s.data

/-- Case-insensitive literal character (all source patterns carry the `i` flag). -/
def rch (c : Char) : Reg := .ch fun d => d.toLower = c.toLower

/-- Case-insensitive literal string. -/
def rlit (s : String) : Reg := s.data.foldr (fun c acc => .cat (rch c) acc) .eps

def rcats (l : List Reg) : Reg := l.foldr .cat .eps

def ralts : List Reg → Reg
  | [] => .ch fun _ => false
  | [r] => r
  | r :: rest => .alt r (ralts rest)

def wsStar : Reg := .chStar isWsChar

def wsPlus : Reg := .cat (.ch isWsChar) (.chStar isWsChar)

/-- `\b<s>\b` (case-insensitive whole word). -/
def rword (s : String) : Reg := rcats [.wb, rlit s, .wb]

/-- `x?` for a single character class. -/
def ropt (p : Char → Bool) : Reg := .chRep p 0 1

def isHexLower (c : Char) : Bool :=
  ('0' ≤ c && c ≤ '9') || ('a' ≤ c.toLower && c.toLower ≤ 'f')

def isDigitCh (c : Char) : Bool := '0' ≤ c && c ≤ '9'

/-- Does the pattern avoid the end-of-subject assertion?  (Matches of such
patterns survive appending text to the subject.) -/
def noEos : Reg → Bool
  | .eps => true
  | .ch _ => true
  | .cat a b => noEos a && noEos b
  | .alt a b => noEos a && noEos b
  | .chStar _ => true
  | .chRep _ _ _ => true
  | .wb => true
  | .bos => true
  | .eos => false

/-! ### Canonical event shape (src/core/types.ts) -/

inductive Agent where
  | claude
  | codex
deriving DecidableEq, Repr

inductive EType where
  | tool_call
  | tool_result
  | message
  | subagent
  | meta
deriving DecidableEq, Repr

/-- The detail keys the commentary/watcher code reads from an event's
`details` bag; a `none` field stands for an absent or non-string value. -/
structure InputBag where
  command : Option String := none
  cmd : Option String := none
  path : Option String := none
  file_path : Option String := none
deriving DecidableEq, Repr

structure Details where
  tool : Option String := none
  command : Option String := none
  cmd : Option String := none
  path : Option String := none
  file_path : Option String := none
  output : Option String := none
  cwd : Option String := none
  input : Option InputBag := none
deriving DecidableEq, Repr

inductive Source where
  | vscode
  | cli
deriving DecidableEq, Repr

/-- `KibitzEvent` of src/core/types.ts. -/
structure KEvent where
  sessionId : String
  projectName : String
  sessionTitle : Option String := none
  agent : Agent
  source : Source
  timestamp : Int
  type : EType
  summary : String
  details : Details := {}
deriving DecidableEq, Repr

/-- `SessionInfo` of src/core/types.ts. -/
structure SessionInfo where
  id : String
  projectName : String
  sessionTitle : Option String := none
  agent : Agent
  source : Source
  filePath : String
  lastActivity : Int
deriving DecidableEq, Repr

/-! ### Pattern tables of src/core/commentary.ts -/

inductive Severity where
  | high
  | medium
deriving DecidableEq, Repr

structure SecurityRule where
  severity : Severity
  signal : String
  pattern : Reg

structure SecurityFinding where
  severity : Severity
  signal : String
  evidence : String
deriving DecidableEq, Repr

/-- `/\b(?:npm|pnpm|yarn|bun)\s+(?:run\s+)?(?:test|test:[\w:-]+)\b/i` and
`/\b(?:jest|vitest|mocha|ava|pytest|go\s+test|cargo\s+test|dotnet\s+test|mvn\s+test|gradle(?:w)?\s+test|rspec|phpunit)\b/i`. -/
def TEST_COMMAND_PATTERNS : List Reg :=
  [ rcats [.wb, ralts [rlit "npm", rlit "pnpm", rlit "yarn", rlit "bun"], wsPlus,
      .alt (rcats [rlit "run", wsPlus]) .eps,
      ralts [rlit "test",
        rcats [rlit "test:", .cat (.ch fun c => isWordChar c || c = ':' || c = '-')
          (.chStar fun c => isWordChar c || c = ':' || c = '-')]],
      .wb],
    rcats [.wb,
      ralts [rlit "jest", rlit "vitest", rlit "mocha", rlit "ava", rlit "pytest",
        rcats [rlit "go", wsPlus, rlit "test"],
        rcats [rlit "cargo", wsPlus, rlit "test"],
        rcats [rlit "dotnet", wsPlus, rlit "test"],
        rcats [rlit "mvn", wsPlus, rlit "test"],
        rcats [rlit "gradle", ropt (fun c => c.toLower = 'w'), wsPlus, rlit "test"],
        rlit "rspec", rlit "phpunit"],
      .wb] ]

/-- `/\b(?:deploy|release|publish)\b/i` and
`/\b(?:kubectl\s+apply|helm\s+upgrade|terraform\s+apply|serverless\s+deploy|vercel\s+--prod|netlify\s+deploy|fly\s+deploy)\b/i`. -/
def DEPLOY_COMMAND_PATTERNS : List Reg :=
  [ rcats [.wb, ralts [rlit "deploy", rlit "release", rlit "publish"], .wb],
    rcats [.wb,
      ralts [rcats [rlit "kubectl", wsPlus, rlit "apply"],
        rcats [rlit "helm", wsPlus, rlit "upgrade"],
        rcats [rlit "terraform", wsPlus, rlit "apply"],
        rcats [rlit "serverless", wsPlus, rlit "deploy"],
        rcats [rlit "vercel", wsPlus, rlit "--prod"],
        rcats [rlit "netlify", wsPlus, rlit "deploy"],
        rcats [rlit "fly", wsPlus, rlit "deploy"]],
      .wb] ]

/-- `/\b(?:error|failed|failure|exception|traceback|panic|denied|timeout|cannot|can't|unable)\b/i`. -/
def ERROR_SIGNAL_PATTERN : Reg :=
  rcats [.wb,
    ralts [rlit "error", rlit "failed", rlit "failure", rlit "exception",
      rlit "traceback", rlit "panic", rlit "denied", rlit "timeout",
      rlit "cannot", rlit "can't", rlit "unable"],
    .wb]

/-- `SECURITY_COMMAND_RULES` of src/core/commentary.ts, patterns transcribed
one-for-one. -/
def SECURITY_COMMAND_RULES : List SecurityRule :=
  [ { severity := .high,
      signal := "Remote script piped directly into a shell",
      pattern := rcats [.wb, ralts [rlit "curl", rlit "wget"], .wb,
        .chRep (fun c => c ≠ '\n' && c ≠ '|') 0 300, rch '|', wsStar,
        ralts [rlit "bash", rlit "sh", rlit "zsh", rlit "pwsh", rlit "powershell"], .wb] },
    { severity := .high,
      signal := "TLS verification explicitly disabled",
      pattern := rcats [.wb, rlit "NODE_TLS_REJECT_UNAUTHORIZED", wsStar, rch '=',
        wsStar, rlit "0", .wb] },
    { severity := .high,
      signal := "Destructive root-level delete command",
      pattern := rcats [.wb, rlit "rm", wsPlus, rlit "-rf", wsPlus, rch '/',
        .alt (.ch isWsChar) .eos] },
    { severity := .medium,
      signal := "Insecure transport flag used in command",
      pattern := rcats [.wb, rlit "curl", .wb, .chStar (fun c => c ≠ '\n'),
        .ch isWsChar, ralts [rlit "--insecure", rlit "-k"], .wb] },
    { severity := .medium,
      signal := "Git hooks bypassed with --no-verify",
      pattern := rcats [.wb, rlit "git", .wb, .chStar (fun c => c ≠ '\n'),
        .ch isWsChar, rlit "--no-verify", .wb] },
    { severity := .medium,
      signal := "SSH host key verification disabled",
      pattern := rcats [.wb, rlit "StrictHostKeyChecking", wsStar, rch '=', wsStar,
        rlit "no", .wb] },
    { severity := .medium,
      signal := "Overly broad file permissions (chmod 777)",
      pattern := rcats [.wb, rlit "chmod", wsPlus, rlit "777", .wb] },
    { severity := .medium,
      signal := "Potential secret exposed in command arguments",
      pattern := rcats [.wb,
        ralts [rcats [rlit "api", ropt (fun c => c = '_' || c = '-'), rlit "key"],
          rlit "token", rlit "password"],
        wsStar, rch '=', wsStar,
        .cat (.ch fun c => !isWsChar c) (.chStar fun c => !isWsChar c)] } ]

/-- `SECURITY_PATH_RULES` of src/core/commentary.ts. -/
def SECURITY_PATH_RULES : List SecurityRule :=
  [ { severity := .medium,
      signal := "Secret-related file touched",
      pattern := rcats [.alt .bos (.ch fun c => c = '\\' || c = '/'),
        ralts [rcats [rlit ".env",
            .alt (rcats [rch '.',
              .cat (.ch fun c => c ≠ '\\' && c ≠ '/') (.chStar fun c => c ≠ '\\' && c ≠ '/')]) .eps],
          rlit "id_rsa", rlit "id_dsa", rlit "authorized_keys", rlit "known_hosts",
          rcats [rlit "credential", ropt (fun c => c.toLower = 's')],
          rcats [rlit "secret", ropt (fun c => c.toLower = 's')]],
        .alt .eos (.ch fun c => c = '\\' || c = '/')] },
    { severity := .medium,
      signal := "Sensitive key/cert file touched",
      pattern := rcats [rch '.', ralts [rlit "pem", rlit "key", rlit "p12", rlit "pfx"], .eos] } ]

/-- `SESSION_ID_PATTERNS` of src/core/commentary.ts (global, case-insensitive):
UUIDs, rollout file names, `session…`/`turn…` hex tokens. -/
def SESSION_ID_PATTERNS : List Reg :=
  [ rcats [.wb, .chRep isHexLower 8 8,
      rcats [rch '-', .chRep isHexLower 4 4],
      rcats [rch '-', .chRep isHexLower 4 4],
      rcats [rch '-', .chRep isHexLower 4 4],
      rch '-', .chRep isHexLower 12 12, .wb],
    rcats [.wb, rlit "rollout-", .chRep isDigitCh 4 4, rch '-', .chRep isDigitCh 2 2,
      rch '-', .chRep isDigitCh 2 2, rch 't', .chRep isDigitCh 2 2,
      .ch (fun c => c = '-' || c = ':'), .chRep isDigitCh 2 2,
      .ch (fun c => c = '-' || c = ':'), .chRep isDigitCh 2 2,
      .cat (.ch fun c => c = '-' || ('a' ≤ c.toLower && c.toLower ≤ 'z') || isDigitCh c)
        (.chStar fun c => c = '-' || ('a' ≤ c.toLower && c.toLower ≤ 'z') || isDigitCh c),
      .alt (rlit ".jsonl") .eps, .wb],
    rcats [.wb, rlit "session", .chStar (fun c => isWsChar c || c = ':' || c = '_' || c = '-'),
      .chRep isHexLower 8 8, .chStar isHexLower, .wb],
    rcats [.wb, rlit "turn", .chStar (fun c => isWsChar c || c = ':' || c = '_' || c = '-'),
      .chRep isHexLower 8 8, .chStar isHexLower, .wb] ]

/-! ### Regex replacement (JavaScript `String.prototype.replace` with a
global pattern), used by the redaction helpers. -/

/-- The match of `r` at the head of `l` that consumes the most characters
(and at least one), as (last consumed char, rest). -/
def bestMatch (r : Reg) (prev : Option Char) (l : Chars) : Option (Option Char × Chars) :=
  (mrun r prev l).foldl
    (fun acc pr =>
      if pr.2.length < l.length then
        match acc with
        | none => some pr
        | some q => if pr.2.length < q.2.length then some pr else acc
      else acc)
    none

def replaceGo (r : Reg) (repl : Chars) : Nat → Option Char → Chars → Chars
  | 0, _, l => l
  | _ + 1, _, [] => []
  | fuel + 1, prev, c :: cs =>
    match bestMatch r prev (c :: cs) with
    | some (pr, rest) => repl ++ replaceGo r repl fuel pr rest
    | none => c :: replaceGo r repl fuel (some c) cs

/-- JavaScript `s.replace(r, repl)` for a global pattern `r` (each scan
position replaces the longest available match). -/
def regexReplaceAll (r : Reg) (repl : String) (s : String) : String :=
  String.mk (replaceGo r repl.data s.data.length none s.data)

/-- `redactSessionIdentifiers` of src/core/commentary.ts. -/
def redactSessionIdentifiers (s : String) : String :=
  SESSION_ID_PATTERNS.foldl (fun out pat => regexReplaceAll pat "[session]" out) s

/-- One pass of JavaScript `.replace(/\s+/g, ' ')`; the flag records whether
the previous character was whitespace. -/
def collapseGo : Bool → Chars → Chars
  | _, [] => []
  | inWs, c :: cs =>
    if isWsChar c then
      (if inWs then collapseGo true cs else ' ' :: collapseGo true cs)
    else c :: collapseGo false cs

/-- `sanitizePromptText` of src/core/commentary.ts: redact identifiers,
collapse whitespace runs, trim. -/
def sanitizePromptText (text : String) : String :=
  jsTrim (String.mk (collapseGo false (redactSessionIdentifiers text).data))

/-! ### Heuristic assessment (src/core/commentary.ts) -/

inductive DirectionState where
  | onTrack
  | drifting
  | blocked
deriving DecidableEq, Repr

inductive ConfidenceState where
  | high
  | medium
  | low
deriving DecidableEq, Repr

inductive SecurityState where
  | clean
  | watch
  | alert
deriving DecidableEq, Repr

structure CommentaryAssessment where
  direction : DirectionState
  confidence : ConfidenceState
  security : SecurityState
  activitySummary : String
  progressSignals : List String
  driftSignals : List String
  securityFindings : List SecurityFinding
deriving DecidableEq, Repr

/-- `getDetailValue`: first key whose value is a string with non-empty trim. -/
def pickDetail : List (Option String) → String
  | [] => ""
  | some v :: rest => if jsTrim v = "" then pickDetail rest else jsTrim v
  | none :: rest => pickDetail rest

/-- `extractCommand` of src/core/commentary.ts. -/
def extractCommand (event : KEvent) : String :=
  if event.type ≠ .tool_call then ""
  else
    let details := event.details
    let input := details.input.getD {}
    let direct := pickDetail [details.command, details.cmd]
    if direct ≠ "" then direct else pickDetail [input.command, input.cmd]

/-- `extractTouchedPath` of src/core/commentary.ts. -/
def extractTouchedPath (event : KEvent) : String :=
  if event.type ≠ .tool_call then ""
  else
    let details := event.details
    let input := details.input.getD {}
    let direct := pickDetail [details.path, details.file_path]
    if direct ≠ "" then direct else pickDetail [input.path, input.file_path]

/-- `extractToolName` of src/core/commentary.ts. -/
def extractToolName (event : KEvent) : String :=
  match event.details.tool with
  | some v => jsToLower v
  | none => ""

/-- `pushUnique` of src/core/commentary.ts. -/
def pushUnique (list : List String) (value : String) (maxItems : Nat) : List String :=
  let normalized := sanitizePromptText value
  if normalized = "" then list
  else if list.contains normalized then list
  else if list.length < maxItems then list ++ [normalized]
  else list

def severityStr : Severity → String
  | .high => "high"
  | .medium => "medium"

def findingKey (f : SecurityFinding) : String :=
  severityStr f.severity ++ ":" ++ f.signal ++ ":" ++ f.evidence

/-- `pushSecurityFinding` of src/core/commentary.ts (dedup by the
`severity:signal:evidence` key string). -/
def pushSecurityFinding (findings : List SecurityFinding) (finding : SecurityFinding) :
    List SecurityFinding :=
  if findings.any (fun item => findingKey item = findingKey finding) then findings
  else findings ++ [finding]

/-- `detectSecurityFindings` of src/core/commentary.ts. -/
def detectSecurityFindings (findings : List SecurityFinding) (sourceText : String)
    (rules : List SecurityRule) : List SecurityFinding :=
  let evidence := String.mk ((sanitizePromptText sourceText).data.take 140)
  if evidence = "" then findings
  else
    rules.foldl
      (fun fs rule =>
        if rtest rule.pattern sourceText then
          pushSecurityFinding fs
            { severity := rule.severity, signal := rule.signal, evidence := evidence }
        else fs)
      findings

/-- `hasPattern` of src/core/commentary.ts. -/
def hasPattern (text : String) (patterns : List Reg) : Bool :=
  patterns.any fun pat => rtest pat text

/-- `summarizeActivity` of src/core/commentary.ts. -/
def summarizeActivity (reads writes searches commands tests errors : Nat) : String :=
  "reads=" ++ toString reads ++ ", writes=" ++ toString writes ++
    ", searches=" ++ toString searches ++ ", commands=" ++ toString commands ++
    ", tests=" ++ toString tests ++ ", errors=" ++ toString errors

/-- Accumulator for the event loop of `buildCommentaryAssessment`. -/
structure AssessAcc where
  reads : Nat := 0
  writes : Nat := 0
  searches : Nat := 0
  commands : Nat := 0
  tests : Nat := 0
  deploys : Nat := 0
  errors : Nat := 0
  touchedFiles : List String := []
  securityFindings : List SecurityFinding := []
deriving DecidableEq, Repr

/-- One iteration of the event loop of `buildCommentaryAssessment`. -/
def assessStep (acc : AssessAcc) (event : KEvent) : AssessAcc :=
  let summary := sanitizePromptText event.summary
  let summaryLower := jsToLower summary
  let toolName := extractToolName event
  let command := extractCommand event
  let touchedPath := extractTouchedPath event
  let acc :=
    if event.type = .tool_call then
      let acc :=
        { acc with
          reads :=
            if startsWithStr summaryLower "reading " || strIncludes toolName "read" then
              acc.reads + 1
            else acc.reads }
      let acc :=
        { acc with
          writes :=
            if startsWithStr summaryLower "writing " || startsWithStr summaryLower "editing "
                || strIncludes toolName "write" || strIncludes toolName "edit"
                || strIncludes toolName "apply_diff" then
              acc.writes + 1
            else acc.writes }
      let acc :=
        { acc with
          searches :=
            if startsWithStr summaryLower "searching " || startsWithStr summaryLower "finding files"
                || strIncludes toolName "grep" || strIncludes toolName "glob" then
              acc.searches + 1
            else acc.searches }
      let acc :=
        if command ≠ "" then
          let acc := { acc with commands := acc.commands + 1 }
          let acc :=
            { acc with tests := if hasPattern command TEST_COMMAND_PATTERNS then acc.tests + 1 else acc.tests }
          let acc :=
            { acc with deploys := if hasPattern command DEPLOY_COMMAND_PATTERNS then acc.deploys + 1 else acc.deploys }
          { acc with
            securityFindings :=
              detectSecurityFindings acc.securityFindings command SECURITY_COMMAND_RULES }
        else acc
      let acc :=
        if touchedPath ≠ "" then
          let acc := { acc with touchedFiles := pushUnique acc.touchedFiles touchedPath 3 }
          { acc with
            securityFindings :=
              detectSecurityFindings acc.securityFindings touchedPath SECURITY_PATH_RULES }
        else acc
      acc
    else acc
  let output := event.details.output.getD ""
  let combinedText := summary ++ "\n" ++ output
  if (event.type = .message || event.type = .tool_result)
      && rtest ERROR_SIGNAL_PATTERN combinedText then
    { acc with errors := acc.errors + 1 }
  else acc

/-- Comma-separated join (JavaScript `Array.prototype.join(', ')`). -/
def joinComma : List String → String
  | [] => ""
  | [s] => s
  | s :: rest => s ++ ", " ++ joinComma rest

/-- `buildCommentaryAssessment` of src/core/commentary.ts. -/
def buildCommentaryAssessment (events : List KEvent) (sessionTitle : Option String) :
    CommentaryAssessment :=
  let acc := events.foldl assessStep {}
  let progressSignals : List String := []
  let progressSignals :=
    if acc.writes > 0 then
      pushUnique progressSignals (toString acc.writes ++ " write/edit actions executed") 4
    else progressSignals
  let progressSignals :=
    if acc.tests > 0 then
      pushUnique progressSignals (toString acc.tests ++ " test commands detected") 4
    else progressSignals
  let progressSignals :=
    if acc.deploys > 0 then
      pushUnique progressSignals (toString acc.deploys ++ " deploy/release commands detected") 4
    else progressSignals
  let progressSignals :=
    if acc.touchedFiles.length > 0 then
      pushUnique progressSignals ("touched files: " ++ joinComma acc.touchedFiles) 4
    else progressSignals
  let driftSignals : List String := []
  let driftSignals :=
    if acc.reads ≥ 4 && acc.writes = 0 then
      pushUnique driftSignals (toString acc.reads ++ " reads with no code edits") 4
    else driftSignals
  let driftSignals :=
    if acc.commands ≥ 6 && acc.writes = 0 && acc.tests = 0 then
      pushUnique driftSignals
        (toString acc.commands ++ " commands executed without visible code/test progress") 4
    else driftSignals
  let driftSignals :=
    if acc.errors ≥ 2 then
      pushUnique driftSignals (toString acc.errors ++ " error/failure signals seen in outputs") 4
    else driftSignals
  let driftSignals :=
    if acc.deploys > 0 && acc.tests = 0 then
      pushUnique driftSignals "deploy/release command seen without test evidence" 4
    else driftSignals
  let driftSignals :=
    if progressSignals.length = 0 && events.length ≥ 3 then
      pushUnique driftSignals "no concrete progress signal captured in this batch" 4
    else driftSignals
  let direction : DirectionState :=
    if acc.errors ≥ 3 && acc.writes = 0 && acc.tests = 0 then .blocked
    else if driftSignals.length > 0 && acc.writes = 0 && acc.tests = 0 then .drifting
    else if progressSignals.length = 0 then .drifting
    else .onTrack
  let evidenceScore := acc.writes + acc.tests + acc.deploys + (if acc.errors > 0 then 1 else 0)
  let confidence : ConfidenceState :=
    if events.length ≥ 8 || evidenceScore ≥ 3 then .high
    else if events.length ≥ 4 || evidenceScore ≥ 1 then .medium
    else .low
  let security : SecurityState :=
    if acc.securityFindings.any (fun finding => finding.severity = .high) then .alert
    else if acc.securityFindings.length > 0 then .watch
    else .clean
  let progressSignals :=
    match sessionTitle with
    | some title =>
        if title ≠ "" then pushUnique progressSignals ("session goal/title: " ++ title) 5
        else progressSignals
    | none => progressSignals
  { direction := direction
    confidence := confidence
    security := security
    activitySummary :=
      summarizeActivity acc.reads acc.writes acc.searches acc.commands acc.tests acc.errors
    progressSignals := progressSignals
    driftSignals := driftSignals
    securityFindings := acc.securityFindings.take 3 }

/-! ### Enforcement of the assessment on generated text
(src/core/commentary.ts `applyAssessmentSignals` and the sanitizers) -/

/-- `/\bsecurity\b|\bsecurity alert\b|\bsecurity watch\b/i`. -/
def securitySignalPattern : Reg :=
  ralts [rword "security", rword "security alert", rword "security watch"]

/-- `/\bverdict\b|\bon.?track\b|\bdrifting\b|\bblocked\b|\bmomentum\b/i`. -/
def closingLinePattern : Reg :=
  ralts [rword "verdict",
    rcats [.wb, rlit "on", ropt (fun c => c ≠ '\n'), rlit "track", .wb],
    rword "drifting", rword "blocked", rword "momentum"]

/-- `summarizeClosingEvidence` of src/core/commentary.ts. -/
def summarizeClosingEvidence (assessment : CommentaryAssessment) : String :=
  match assessment.progressSignals with
  | sig :: _ => sig
  | [] =>
    match assessment.driftSignals with
    | sig :: _ => sig
    | [] => assessment.activitySummary

def directionStr : DirectionState → String
  | .onTrack => "on-track"
  | .drifting => "drifting"
  | .blocked => "blocked"

def confidenceStr : ConfidenceState → String
  | .high => "high"
  | .medium => "medium"
  | .low => "low"

def securityStr : SecurityState → String
  | .clean => "clean"
  | .watch => "watch"
  | .alert => "alert"

/-- `createClosingLine` of src/core/commentary.ts. -/
def createClosingLine (assessment : CommentaryAssessment) : String :=
  let evidence := summarizeClosingEvidence assessment
  let dir := if assessment.direction = .onTrack then "on track" else directionStr assessment.direction
  let sec :=
    if assessment.security ≠ .clean then " Security is " ++ securityStr assessment.security ++ "."
    else ""
  evidence ++ " — looks " ++ dir ++ " with " ++ confidenceStr assessment.confidence ++
    " confidence." ++ sec

/-- `applyAssessmentSignals` of src/core/commentary.ts: prepend a security
callout when the assessment is non-clean and the text has no security
mention; append a deterministic closing line when none is detected. -/
def applyAssessmentSignals (commentary : String) (assessment : CommentaryAssessment) : String :=
  let out := jsTrim commentary
  let out := if out = "" then "Agent completed actions in this session." else out
  let hasSecuritySignal := rtest securitySignalPattern out
  let out :=
    if !hasSecuritySignal && assessment.security ≠ .clean then
      let top := assessment.securityFindings.head?
      let label := if assessment.security = .alert then "SECURITY ALERT" else "SECURITY WATCH"
      let reason :=
        match top with
        | some t => t.signal ++ " (" ++ t.evidence ++ ")"
        | none => "Risky behavior detected in this batch."
      label ++ ": " ++ reason ++ "\n" ++ out
    else out
  let hasClosingLine := rtest closingLinePattern out
  if !hasClosingLine then out ++ "\n" ++ createClosingLine assessment else out

/-- The blocked first-person meta-commentary line pattern of
`sanitizeGeneratedCommentary`. -/
def blockedLinePattern : Reg :=
  rcats [.wb,
    ralts [rcats [rlit "i", ropt (fun c => c = '\'' || c = '’'), rlit "ll"],
      rlit "i will",
      rcats [rlit "we", .alt (ralts [rlit "'ll", rlit " will"]) .eps]],
    .wb, .chStar (fun c => c ≠ '\n'), .wb,
    ralts [rlit "pull", rlit "fetch", rlit "read", rlit "inspect", rlit "scan",
      rlit "parse", rlit "load", rlit "check"],
    .wb, .chStar (fun c => c ≠ '\n'), .wb,
    ralts [rlit "session", rlit "log", rlit "trace", rlit "jsonl", rlit "prompt", rlit "history"],
    .wb]

/-- Newline join (JavaScript `Array.prototype.join('\n')`). -/
def joinNl : List String → String
  | [] => ""
  | [s] => s
  | s :: rest => s ++ "\n" ++ joinNl rest

/-- `sanitizeGeneratedCommentary` of src/core/commentary.ts. -/
def sanitizeGeneratedCommentary (text : String) : String :=
  let out := redactSessionIdentifiers text
  let out := regexReplaceAll (rcats [.wb, rlit "local session log", ropt (fun c => c.toLower = 's'), .wb])
    "recent actions" out
  let out := regexReplaceAll (rcats [.wb, rlit "session log", ropt (fun c => c.toLower = 's'), .wb])
    "actions" out
  let out := regexReplaceAll (rword "session id") "session" out
  let keptLines := (jsSplit out '\n').filter fun line => !rtest blockedLinePattern (jsTrim line)
  let out := jsTrim (joinNl keptLines)
  if out = "" then "Agent completed actions in this session." else out

/-! ### Session watcher (src/core/watcher.ts) -/

def agentStr : Agent → String
  | .claude => "claude"
  | .codex => "codex"

/-- `WatchedFile` of src/core/watcher.ts (the `fs.FSWatcher` handle is not
part of the observable state). -/
structure WatchedFile where
  filePath : String
  sessionId : String
  offset : Nat
  agent : Agent
  ignore : Bool
  projectName : String
  sessionTitle : Option String := none
deriving DecidableEq, Repr

/-- Association-list update with JavaScript `Map.set` semantics
(replace in place, else append). -/
def alSet {α : Type} (k : String) (v : α) : List (String × α) → List (String × α)
  | [] => [(k, v)]
  | (k', v') :: rest => if k' = k then (k, v) :: rest else (k', v') :: alSet k v rest

/-- Association-list lookup (JavaScript `Map.get`). -/
def alGet {α : Type} (k : String) : List (String × α) → Option α
  | [] => none
  | (k', v') :: rest => if k' = k then some v' else alGet k rest

/-- The watcher's `sessionId → projectName` map harvested from meta events. -/
abbrev SessionProjectNames := List (String × String)

/-- The vendor-specific helpers `readNewLines` calls.  Their bodies parse
JSON log lines or read global state files; the watcher claims hold for every
behaviour of these helpers, so they are parameters of the embedding.
`Option String` results model JavaScript `string | undefined` with the empty
string collapsed into `none` (falsy). -/
structure VendorHooks where
  parseClaudeLine : String → List KEvent
  parseCodexLine : String → List KEvent
  isKibitzInternalCodexLine : String → Bool
  extractCodexSessionTitle : String → String → Option String
  extractSessionTitleFromLine : String → Agent → Option String
  getCodexThreadTitle : String → Option String
  isNoiseSessionTitle : String → Bool
  hasClaudeIdeLocks : Bool

/-- `normalizeSessionId` of src/core/watcher.ts. -/
def normalizeSessionId (rawSessionId : String) (agent : Agent) : String :=
  let value := jsTrim rawSessionId
  if value = "" then ""
  else if agent = .codex then jsToLower value
  else value

/-- `fallbackSessionTitle` of src/core/watcher.ts. -/
def fallbackSessionTitle (projectName : String) (agent : Agent) : String :=
  let project := jsTrim projectName
  if project ≠ "" then project else agentStr agent ++ " session"

/-- `SessionWatcher.detectSource`. -/
def detectSource (hooks : VendorHooks) (entry : WatchedFile) : Source :=
  if entry.agent = .codex then .cli
  else if hooks.hasClaudeIdeLocks then .vscode else .cli

/-- `SessionWatcher.reconcileCodexSessionTitle`. -/
def reconcileCodexSessionTitle (hooks : VendorHooks) (entry : WatchedFile) : WatchedFile :=
  if entry.agent ≠ .codex then entry
  else
    match hooks.getCodexThreadTitle entry.sessionId with
    | some threadTitle => { entry with sessionTitle := some threadTitle }
    | none =>
      match entry.sessionTitle with
      | some title =>
        if hooks.isNoiseSessionTitle title then { entry with sessionTitle := none } else entry
      | none => entry

/-- JavaScript `cwd.split('/').pop() || cwd.split('\\').pop() || 'unknown'`. -/
def cwdBaseName (cwd : String) : String :=
  let a := ((jsSplit cwd '/').getLast?).getD ""
  if a ≠ "" then a
  else
    let b := ((jsSplit cwd '\\').getLast?).getD ""
    if b ≠ "" then b else "unknown"

/-- The `for (const event of events)` body of `SessionWatcher.readNewLines`:
resolve the session id (a differing non-empty normalized id replaces the
record's), restamp the event, refresh source/title, and track project names
from meta events. -/
def processEvents (hooks : VendorHooks) :
    List KEvent → WatchedFile → SessionProjectNames → List KEvent →
      WatchedFile × SessionProjectNames × List KEvent
  | [], entry, spn, emitted => (entry, spn, emitted)
  | event :: evs, entry, spn, emitted =>
    let normalizedEventSessionId := normalizeSessionId event.sessionId entry.agent
    let entry :=
      if normalizedEventSessionId ≠ "" && normalizedEventSessionId ≠ entry.sessionId then
        { entry with sessionId := normalizedEventSessionId }
      else entry
    let event := { event with sessionId := entry.sessionId }
    let event := { event with source := detectSource hooks entry }
    let event :=
      { event with
        sessionTitle :=
          some (match entry.sessionTitle with
            | some title => title
            | none => fallbackSessionTitle entry.projectName entry.agent) }
    let step :
        WatchedFile × SessionProjectNames × KEvent :=
      if event.type = .meta && (event.details.cwd.getD "") ≠ "" then
        let cwd := event.details.cwd.getD ""
        let name := cwdBaseName cwd
        ({ entry with projectName := name },
          alSet event.sessionId name spn,
          { event with projectName := name })
      else
        match alGet event.sessionId spn with
        | some name =>
          ({ entry with projectName := name }, spn, { event with projectName := name })
        | none => (entry, spn, event)
    processEvents hooks evs step.1 step.2.1 (emitted ++ [step.2.2])

/-- The `for (const line of lines)` body of `SessionWatcher.readNewLines`,
including the self-loop break that sets `ignore`. -/
def processLines (hooks : VendorHooks) :
    List String → WatchedFile → SessionProjectNames → List KEvent →
      WatchedFile × SessionProjectNames × List KEvent
  | [], entry, spn, emitted => (entry, spn, emitted)
  | line :: rest, entry, spn, emitted =>
    if entry.agent = .codex && hooks.isKibitzInternalCodexLine line then
      ({ entry with ignore := true }, spn, emitted)
    else
      let entry :=
        if entry.sessionTitle.isNone && entry.agent = .codex then
          match hooks.extractCodexSessionTitle entry.filePath entry.sessionId with
          | some title => { entry with sessionTitle := some title }
          | none => entry
        else entry
      let entry :=
        if entry.sessionTitle.isNone then
          match hooks.extractSessionTitleFromLine line entry.agent with
          | some title => { entry with sessionTitle := some title }
          | none => entry
        else entry
      let events :=
        if entry.agent = .claude then hooks.parseClaudeLine line else hooks.parseCodexLine line
      let res := processEvents hooks events entry spn emitted
      processLines hooks rest res.1 res.2.1 res.2.2

/-- `SessionWatcher.readNewLines`: one processed change notification for a
tracked file.  `file` is the file's content at `fs.statSync` time (`none`
models an unreadable/vanished file). -/
def readNewLines (hooks : VendorHooks) (entry : WatchedFile)
    (spn : SessionProjectNames) (file : Option String) :
    WatchedFile × SessionProjectNames × List KEvent :=
  if entry.ignore then
    match file with
    | some f => ({ entry with offset := f.data.length }, spn, [])
    | none => (entry, spn, [])
  else
    match file with
    | none => (entry, spn, [])
    | some f =>
      let entry := reconcileCodexSessionTitle hooks entry
      let size := f.data.length
      if size ≤ entry.offset then (entry, spn, [])
      else
        let buf := f.data.drop entry.offset
        let entry := { entry with offset := size }
        let chunk := String.mk buf
        let lines := (jsSplit chunk '\n').filter fun l => jsTrim l ≠ ""
        processLines hooks lines entry spn []

/-- Repeated change notifications: the post-state and emissions after each
processed notification, in order. -/
def runTrace (hooks : VendorHooks) :
    WatchedFile → SessionProjectNames → List (Option String) →
      List (WatchedFile × SessionProjectNames × List KEvent)
  | _, _, [] => []
  | entry, spn, f :: fs =>
    let r := readNewLines hooks entry spn f
    r :: runTrace hooks r.1 r.2.1 fs

/-! ### Dispatch protocol (src/core/session-dispatch.ts, current revision) -/

inductive TargetKind where
  | existing
  | newCodex
  | newClaude
deriving DecidableEq, Repr

structure DTarget where
  kind : TargetKind
  agent : Option Agent := none
  sessionId : Option String := none
  projectName : Option String := none
  sessionTitle : Option String := none
deriving DecidableEq, Repr

inductive DState where
  | queued
  | started
  | sent
  | failed
deriving DecidableEq, Repr

inductive Platform where
  | win32
  | darwin
  | linux
deriving DecidableEq, Repr

/-- Modelled from the spec: `getProviderCliCommand` lives in
src/core/platform-support.ts, which is not among the provided sources; §6 of
the spec and scripts/test-platform-dispatch.js pin it to the provider name,
with a `.cmd` wrapper on Windows. -/
def getProviderCliCommand (provider : Agent) (platform : Platform) : String :=
  if platform = .win32 then agentStr provider ++ ".cmd" else agentStr provider

structure DispatchCommand where
  provider : Agent
  command : String
  args : List String
deriving DecidableEq, Repr

/-- `buildExistingDispatchCommand` of src/core/session-dispatch.ts
(current revision; `throw` is modelled as `Except.error`). -/
def buildExistingDispatchCommand (target : DTarget) (prompt : String)
    (platform : Platform) : Except String DispatchCommand :=
  if target.kind ≠ .existing then .error "Expected existing target"
  else
    let sessionId := jsTrim (target.sessionId.getD "")
    match target.agent with
    | none => .error "Missing existing-session target details"
    | some agent =>
      if sessionId = "" then .error "Missing existing-session target details"
      else if agent = .codex then
        .ok
          { provider := .codex
            command := getProviderCliCommand .codex platform
            args := ["exec", "resume", "--json", "--skip-git-repo-check", sessionId, prompt] }
      else
        .ok
          { provider := .claude
            command := getProviderCliCommand .claude platform
            args := ["-p", prompt, "--verbose", "--output-format", "stream-json",
              "--resume", sessionId] }

/-- A session log file as seen by `fs.statSync`/`fs.readSync`: its content
(sizes are measured on it) and its modification time. -/
structure FState where
  data : String
  mtimeMs : Int
deriving DecidableEq, Repr

/-- `SessionFileSnapshot` of src/core/session-dispatch.ts. -/
structure SessionFileSnapshot where
  fileExists : Bool
  size : Nat
  mtimeMs : Int
deriving DecidableEq, Repr

/-- `captureSessionFileSnapshot`. -/
def captureSessionFileSnapshot : Option FState → SessionFileSnapshot
  | some f => { fileExists := true, size := f.data.data.length, mtimeMs := f.mtimeMs }
  | none => { fileExists := false, size := 0, mtimeMs := 0 }

/-- `hasSessionFileChanged` (it throws when the file is gone). -/
def hasSessionFileChanged (file : Option FState) (before : SessionFileSnapshot) :
    Except String Bool :=
  let after := captureSessionFileSnapshot file
  if !after.fileExists then .error "Target session file is not accessible after dispatch"
  else .ok (decide (after.size > before.size) || decide (after.mtimeMs > before.mtimeMs))

/-- JavaScript `s.split(/\r?\n/g)`. -/
def splitCrLf (s : String) : List String :=
  let ps := jsSplit s '\n' 
  (ps.dropLast.map fun t =>
    match t.data.getLast? with
    | some '\r' => String.mk t.data.dropLast
    | _ => t) ++ [(ps.getLast?).getD ""]

/-- `firstPromptSignature`: first non-empty trimmed line, cut to 160 chars. -/
def firstPromptSignature (prompt : String) : String :=
  let lines := ((splitCrLf prompt).map jsTrim).filter fun l => l ≠ ""
  let first :=
    match lines with
    | l :: _ => l
    | [] => jsTrim prompt
  String.mk (first.data.take 160)

/-- `readSessionTailSinceOffset`: the bytes from 2 KiB before the old size
(capped to the last 512 KiB) to the end of the file. -/
def readSessionTailSinceOffset (file : Option FState) (previousSize : Nat) : String :=
  match file with
  | none => ""
  | some f =>
    let size := f.data.data.length
    let maxBytes := 1024 * 512
    let start := previousSize - 2048
    let desiredStart := if size - start > maxBytes then size - maxBytes else start
    let length := size - desiredStart
    if length = 0 then ""
    else String.mk ((f.data.data.drop desiredStart).take length)

/-- `verifyExistingDispatchDelivery`: the post-hoc check run when the
subprocess exits before the prompt is observed in the log. -/
def verifyExistingDispatchDelivery (file : Option FState) (prompt : String)
    (before : SessionFileSnapshot) : Except String Unit :=
  match hasSessionFileChanged file before with
  | .error e => .error e
  | .ok changed =>
    if !changed then .error "Target session did not update after dispatch"
    else
      let promptSignature := firstPromptSignature prompt
      if promptSignature.data.length < 4 then .ok ()
      else
        let tail := readSessionTailSinceOffset file before.size
        if tail = "" then .error "Target session updated but prompt text was not found"
        else if !strIncludes (jsToLower tail) (jsToLower promptSignature) then
          .error "Prompt text was not found in target session update"
        else .ok ()

/-- How the acknowledgement race of `waitForDispatchAcknowledgement` (two
signals joined by a first-wins selector under `runWithTimeout`) resolved. -/
inductive AckOutcome where
  | promptObserved
  | processComplete
  | processFailed (msg : String)
  | timedOut
deriving DecidableEq, Repr

/-- External behaviour of one existing-session dispatch: the file snapshot
taken as dispatch begins, whether the spawn itself failed, how the
acknowledgement race resolved, and the file state read by the post-hoc
verification. -/
structure DispatchWorld where
  beforeFile : Option FState
  spawnError : Option String
  ack : AckOutcome
  verifyFile : Option FState
deriving DecidableEq, Repr

/-- `SessionDispatchService.dispatchExistingSession` (current revision):
the emitted status states in order, and whether a subprocess was spawned. -/
def dispatchExistingSession (active : List SessionInfo) (target : DTarget)
    (prompt : String) (w : DispatchWorld) (platform : Platform) :
    List DState × Bool :=
  let targetSessionId := jsToLower (jsTrim (target.sessionId.getD ""))
  match target.agent with
  | none => ([.failed], false)
  | some targetAgent =>
    if targetSessionId = "" then ([.failed], false)
    else
      match active.find? (fun session =>
          session.agent = targetAgent && jsToLower session.id = targetSessionId) with
      | none => ([.failed], false)
      | some _ =>
        match buildExistingDispatchCommand target prompt platform with
        | .error _ => ([.started, .failed], false)
        | .ok _ =>
          let before := captureSessionFileSnapshot w.beforeFile
          match w.spawnError with
          | some _ => ([.started, .failed], false)
          | none =>
            match w.ack with
            | .processFailed _ => ([.started, .failed], true)
            | .timedOut => ([.started, .failed], true)
            | .promptObserved => ([.started, .sent], true)
            | .processComplete =>
              match verifyExistingDispatchDelivery w.verifyFile prompt before with
              | .ok _ => ([.started, .sent], true)
              | .error _ => ([.started, .failed], true)

inductive Origin where
  | vscode
  | cli
deriving DecidableEq, Repr

structure DispatchRequest where
  target : DTarget
  prompt : String
  origin : Origin
deriving DecidableEq, Repr

/-- `SessionDispatchService.dispatch`: prompt validation, the `queued`
status, then the existing-session path or the new-session launch (whose
interactive outcome is the `newSessionError` input). -/
def dispatchF (active : List SessionInfo) (request : DispatchRequest)
    (w : DispatchWorld) (newSessionError : Option String) (newSessionSpawned : Bool)
    (platform : Platform) : List DState × Bool :=
  let prompt := jsTrim request.prompt
  if prompt = "" then ([.failed], false)
  else
    let rest :=
      if request.target.kind = .existing then
        dispatchExistingSession active request.target prompt w platform
      else
        match newSessionError with
        | none => ([.started, .sent], newSessionSpawned)
        | some _ => ([.started, .failed], newSessionSpawned)
    (.queued :: rest.1, rest.2)

/-! ### Commentary engine as a labelled transition system
(src/core/commentary.ts `CommentaryEngine`)

JavaScript is single-threaded: the synchronous segments between `await`
points are atomic.  A configuration carries the engine fields; `tasks` holds
one entry per `processFlushQueue` loop currently suspended at
`await this.generateCommentary(batch, state)` — i.e. per generation in
flight, with the batch it is generating.  Timer handles are booleans
(armed / not armed); a timer firing is a transition guarded on its flag. -/

def MIN_BATCH_SIZE : Nat := 1
def MAX_BATCH_SIZE : Nat := 40

structure SessState where
  events : List KEvent := []
  idleTimer : Bool := false
  maxTimer : Bool := false
  recentCommentary : List String := []
deriving DecidableEq, Repr

structure EngineConfig where
  sessions : List (String × SessState) := []
  flushQueue : List String := []
  queuedSessions : List String := []
  generating : Bool := false
  paused : Bool := false
  tasks : List (String × List KEvent) := []
deriving DecidableEq, Repr

/-- `CommentaryEngine.sessionKey`. -/
def sessionKey (event : KEvent) : String := agentStr event.agent ++ ":" ++ event.sessionId

/-- `CommentaryEngine.ensureSessionState`. -/
def ensureSessionState (key : String) (c : EngineConfig) : EngineConfig :=
  match alGet key c.sessions with
  | some _ => c
  | none => { c with sessions := c.sessions ++ [(key, {})] }

/-- `CommentaryEngine.clearSessionTimers`. -/
def clearSessionTimers (state : SessState) : SessState :=
  { state with idleTimer := false, maxTimer := false }

/-- The `while (this.flushQueue.length > 0)` loop of `processFlushQueue`,
run synchronously until it either suspends at the generation `await`
(recording the new in-flight generation in `tasks`) or exhausts the queue. -/
def drainGo : List String → EngineConfig → EngineConfig
  | [], c => { c with flushQueue := [] }
  | key :: rest, c =>
    let c := { c with queuedSessions := c.queuedSessions.erase key }
    match alGet key c.sessions with
    | none => drainGo rest c
    | some state =>
      if state.events = [] then drainGo rest c
      else
        { c with
          flushQueue := rest
          sessions := alSet key { state with events := [] } c.sessions
          generating := true
          tasks := c.tasks ++ [(key, state.events)] }

/-- Entry into `CommentaryEngine.processFlushQueue` (the guard plus the loop
up to its first suspension). -/
def processFlushQueue (c : EngineConfig) : EngineConfig :=
  if c.generating then c else drainGo c.flushQueue c

/-- `CommentaryEngine.enqueueFlush`. -/
def enqueueFlush (key : String) (c : EngineConfig) : EngineConfig :=
  if c.queuedSessions.contains key then c
  else
    processFlushQueue
      { c with
        queuedSessions := c.queuedSessions ++ [key]
        flushQueue := c.flushQueue ++ [key] }

/-- `CommentaryEngine.requestFlush`. -/
def requestFlush (key : String) (force : Bool) (c : EngineConfig) : EngineConfig :=
  match alGet key c.sessions with
  | none => c
  | some state =>
    let state := clearSessionTimers state
    let c := { c with sessions := alSet key state c.sessions }
    if state.events = [] then c
    else if !force && state.events.length < MIN_BATCH_SIZE then
      { c with sessions := alSet key { state with idleTimer := true } c.sessions }
    else enqueueFlush key c

/-- `CommentaryEngine.addEvent`. -/
def addEvent (event : KEvent) (c : EngineConfig) : EngineConfig :=
  if c.paused then c
  else if event.type = .tool_result || event.type = .meta then c
  else
    let key := sessionKey event
    let c := ensureSessionState key c
    match alGet key c.sessions with
    | none => c
    | some state =>
      let state := { state with events := state.events ++ [event] }
      let c := { c with sessions := alSet key state c.sessions }
      if state.events.length ≥ MAX_BATCH_SIZE then requestFlush key true c
      else
        let state := { state with idleTimer := true }
        let state := if !state.maxTimer then { state with maxTimer := true } else state
        { c with sessions := alSet key state c.sessions }

/-- Resumption of a suspended `processFlushQueue` loop when its awaited
generation finishes (successfully with text `text`, or failing): the
`finally` clears the flag, the loop re-queues the session if events arrived
meanwhile, and then continues on the live queue. -/
def completeGeneration (key : String) (batch : List KEvent) (text : String)
    (success : Bool) (c : EngineConfig) : EngineConfig :=
  let c :=
    if success then
      match alGet key c.sessions with
      | some state =>
        let rc := state.recentCommentary ++ [text]
        let rc := if rc.length > 5 then rc.drop 1 else rc
        { c with sessions := alSet key { state with recentCommentary := rc } c.sessions }
      | none => c
    else c
  let c := { c with generating := false, tasks := c.tasks.erase (key, batch) }
  let c :=
    match alGet key c.sessions with
    | none => c
    | some state =>
      if state.events ≠ [] then
        if state.events.length ≥ MIN_BATCH_SIZE then enqueueFlush key c
        else if !state.idleTimer then
          { c with sessions := alSet key { state with idleTimer := true } c.sessions }
        else c
      else c
  drainGo c.flushQueue c

/-- Arm-state surgery used to model a timer firing (a fired handle is spent). -/
def disarmIdle (key : String) (c : EngineConfig) : EngineConfig :=
  match alGet key c.sessions with
  | none => c
  | some state => { c with sessions := alSet key { state with idleTimer := false } c.sessions }

def disarmMax (key : String) (c : EngineConfig) : EngineConfig :=
  match alGet key c.sessions with
  | none => c
  | some state => { c with sessions := alSet key { state with maxTimer := false } c.sessions }

/-- Atomic steps of the engine: an event arrival, an armed timer firing,
an in-flight generation completing, and the pause/resume API. -/
inductive EngineStep : EngineConfig → EngineConfig → Prop where
  | addEventStep (event : KEvent) (c : EngineConfig) :
      EngineStep c (addEvent event c)
  | fireIdle (key : String) (c : EngineConfig) (state : SessState)
      (h1 : alGet key c.sessions = some state) (h2 : state.idleTimer = true) :
      EngineStep c (requestFlush key false (disarmIdle key c))
  | fireMax (key : String) (c : EngineConfig) (state : SessState)
      (h1 : alGet key c.sessions = some state) (h2 : state.maxTimer = true) :
      EngineStep c (requestFlush key true (disarmMax key c))
  | complete (key : String) (batch : List KEvent) (text : String) (success : Bool)
      (c : EngineConfig) (h : (key, batch) ∈ c.tasks) :
      EngineStep c (completeGeneration key batch text success c)
  | pauseStep (c : EngineConfig) : EngineStep c { c with paused := true }
  | resumeStep (c : EngineConfig) : EngineStep c { c with paused := false }

/-- Configurations reachable from the freshly-constructed engine. -/
def engineReachable (c : EngineConfig) : Prop :=
  Relation.ReflTransGen EngineStep {} c

/-! ### Helper predicates and concrete instances used in the statements -/

/-- Some rule of `SECURITY_COMMAND_RULES` matches the command. -/
def matchesSecurityCommandRule (command : String) : Bool :=
  SECURITY_COMMAND_RULES.any fun rule => rtest rule.pattern command

/-- First character (if any) is not a word character. -/
def headNotWord (l : Chars) : Bool :=
  match l.head? with
  | some c => !isWordChar c
  | none => true

/-- Non-empty with a non-whitespace first character. -/
def headNonWs (s : String) : Bool :=
  match s.data.head? with
  | some c => !isWsChar c
  | none => false

/-- An event in a generation batch would have been filtered by `addEvent`. -/
def isSkippedType (e : KEvent) : Prop := e.type = .tool_result ∨ e.type = .meta

/-- Invariant: neither pending session queues nor in-flight batches contain
tool-result or meta events. -/
def cleanConfig (c : EngineConfig) : Prop :=
  (∀ ks ∈ c.sessions, ∀ e ∈ (ks : String × SessState).2.events, ¬ isSkippedType e) ∧
  (∀ kb ∈ c.tasks, ∀ e ∈ (kb : String × List KEvent).2, ¬ isSkippedType e)

/-- Vendor hooks with constant behaviour (used to instantiate the
universally-quantified watcher theorems at concrete inputs). -/
def constHooks (evs : List KEvent) : VendorHooks :=
  { parseClaudeLine := fun _ => evs
    parseCodexLine := fun _ => evs
    isKibitzInternalCodexLine := fun _ => false
    extractCodexSessionTitle := fun _ _ => none
    extractSessionTitleFromLine := fun _ _ => none
    getCodexThreadTitle := fun _ => none
    isNoiseSessionTitle := fun _ => false
    hasClaudeIdeLocks := false }

/-- A minimal event template. -/
def sampleEvent (agent : Agent) (sid : String) (ty : EType) (d : Details) : KEvent :=
  { sessionId := sid, projectName := "p", agent := agent, source := .cli,
    timestamp := 0, type := ty, summary := "", details := d }

/-- A tool call running `curl a|sh` (matches the first security rule). -/
def curlEvent : KEvent :=
  sampleEvent .codex "s1" .tool_call { tool := some "bash", command := some "curl a|sh" }

/-- The tracked record of the C1 counterexample: a claude file whose session
id was already resolved to the non-empty identity `"aaaa"`. -/
def c1Entry : WatchedFile :=
  { filePath := "f", sessionId := "aaaa", offset := 0, agent := .claude,
    ignore := false, projectName := "p", sessionTitle := some "t" }

/-- A decoded event carrying the different-looking non-empty identity `"bbbb"`. -/
def c1Event : KEvent := sampleEvent .claude "bbbb" .message {}

/-- Active-session entry used by the dispatch counterexamples/witnesses. -/
def dSession : SessionInfo :=
  { id := "sess1", projectName := "p", agent := .claude, source := .cli,
    filePath := "f", lastActivity := 0 }

def dTargetSess1 : DTarget := { kind := .existing, agent := some .claude, sessionId := some "sess1" }

/-- World of the C3 counterexample: the subprocess exits cleanly before the
prompt is observed; the log file's mtime advanced but no bytes were appended
(the instruction's first line is nowhere in the file). -/
def c3World : DispatchWorld :=
  { beforeFile := some { data := "abcd", mtimeMs := 0 }
    spawnError := none
    ack := .processComplete
    verifyFile := some { data := "abcd", mtimeMs := 1 } }

/-- World of the C3 witness: the appended bytes do contain the prompt. -/
def c3GoodWorld : DispatchWorld :=
  { beforeFile := some { data := "abcd", mtimeMs := 0 }
    spawnError := none
    ack := .processComplete
    verifyFile := some { data := "abcdhello world out", mtimeMs := 1 } }

/-- Events of the engine transition traces. -/
def engEvent (sid : String) : KEvent := sampleEvent .codex sid .tool_call {}

/-- Trace exhibiting two concurrent generations (C6): session a generates;
meanwhile a second event for a arrives and session b is queued; when a's
generation completes, the engine starts b's generation from the re-entrant
`enqueueFlush` call and then the resumed loop also starts a's. -/
def engC1 : EngineConfig := addEvent (engEvent "a") {}
def engC2 : EngineConfig := requestFlush "codex:a" true (disarmMax "codex:a" engC1)
def engC3 : EngineConfig := addEvent (engEvent "a") engC2
def engC4 : EngineConfig := addEvent (engEvent "b") engC3
def engC5 : EngineConfig := requestFlush "codex:b" true (disarmMax "codex:b" engC4)
def engC6 : EngineConfig := completeGeneration "codex:a" [engEvent "a"] "text" true engC5

/-- Trace for C8: session a generates, session b is queued, the engine is
paused; when a's generation completes the queued batch for b still starts
generating although the engine is paused. -/
def pseC1 : EngineConfig := addEvent (engEvent "a") {}
def pseC2 : EngineConfig := requestFlush "codex:a" true (disarmMax "codex:a" pseC1)
def pseC3 : EngineConfig := addEvent (engEvent "b") pseC2
def pseC4 : EngineConfig := requestFlush "codex:b" true (disarmMax "codex:b" pseC3)
def pseC5 : EngineConfig := { pseC4 with paused := true }
def pseC6 : EngineConfig := completeGeneration "codex:a" [engEvent "a"] "text" true pseC5

/-! ## Theorems -/

/-! ### Generic helpers -/

theorem mk_ne_empty (c : Char) (l : Chars) : String.mk (c :: l) ≠ "" := by
  intro h
  exact List.noConfusion (congrArg String.data h)

theorem headNonWs_mk (l : Chars) :
    headNonWs (String.mk l) =
      (match l.head? with
       | some c => !isWsChar c
       | none => false) := rfl

theorem mem_alSet {α : Type} (k : String) (v : α) :
    ∀ (l : List (String × α)) (x : String × α), x ∈ alSet k v l → x = (k, v) ∨ x ∈ l := by
  intro l
  induction l with
  | nil => intro x hx; simp [alSet] at hx; exact Or.inl hx
  | cons hd tl ih =>
    obtain ⟨a, b⟩ := hd
    intro x hx
    by_cases hk : a = k
    · simp [alSet, hk] at hx
      rcases hx with hx | hx
      · exact Or.inl hx
      · exact Or.inr (List.mem_cons_of_mem _ hx)
    · simp only [alSet] at hx
      rw [if_neg hk] at hx
      rcases List.mem_cons.1 hx with hx | hx
      · exact Or.inr (hx ▸ List.mem_cons_self _ _)
      · rcases ih x hx with hx | hx
        · exact Or.inl hx
        · exact Or.inr (List.mem_cons_of_mem _ hx)

theorem alGet_mem {α : Type} (k : String) :
    ∀ (l : List (String × α)) (v : α), alGet k l = some v → (k, v) ∈ l := by
  intro l
  induction l with
  | nil => intro v hv; simp [alGet] at hv
  | cons hd tl ih =>
    obtain ⟨a, b⟩ := hd
    intro v hv
    by_cases hk : a = k
    · subst hk
      simp [alGet] at hv
      subst hv
      exact List.mem_cons_self _ _
    · simp only [alGet] at hv
      rw [if_neg hk] at hv
      exact List.mem_cons_of_mem _ (ih v hv)

theorem take_ne_nil_of_ne_nil {α : Type} (l : List α) (n : Nat) (h : l ≠ []) (hn : n ≠ 0) :
    l.take n ≠ [] := by
  cases l with
  | nil => exact absurd rfl h
  | cons a t =>
    cases n with
    | zero => exact absurd rfl hn
    | succ m => simp [List.take]

/-! ### Trim and sanitize preserve a non-whitespace head -/

theorem dropWhile_head_not (p : Char → Bool) :
    ∀ (l : Chars) (c : Char), (l.dropWhile p).head? = some c → p c = false := by
  intro l
  induction l with
  | nil => intro c hc; simp [List.dropWhile] at hc
  | cons a t ih =>
    intro c hc
    by_cases ha : p a
    · rw [List.dropWhile_cons_of_pos ha] at hc
      exact ih c hc
    · rw [List.dropWhile_cons_of_neg ha] at hc
      simp at hc
      subst hc
      simpa using ha

theorem trimTrail_head (l : Chars) (h : trimTrail l ≠ []) : (trimTrail l).head? = l.head? := by
  cases l with
  | nil => simp [trimTrail] at h
  | cons c cs =>
    simp only [trimTrail] at h ⊢
    by_cases h1 : trimTrail cs = [] ∧ isWsChar c = true
    · rw [if_pos (by simp [h1.1, h1.2])] at h
      exact absurd rfl h
    · rw [if_neg (by simpa using h1)]
      simp

theorem jsTrim_headNonWs (s : String) (h : jsTrim s ≠ "") : headNonWs (jsTrim s) = true := by
  unfold jsTrim at h ⊢
  rw [headNonWs_mk]
  have hne : trimTrail (s.data.dropWhile isWsChar) ≠ [] := by
    intro hnil
    rw [hnil] at h
    exact h rfl
  have hhead := trimTrail_head (s.data.dropWhile isWsChar) hne
  cases hh : (trimTrail (s.data.dropWhile isWsChar)).head? with
  | none =>
    cases hcase : trimTrail (s.data.dropWhile isWsChar) with
    | nil => exact absurd hcase hne
    | cons a t => rw [hcase] at hh; simp at hh
  | some c =>
    have hc : (s.data.dropWhile isWsChar).head? = some c := by rw [← hhead, hh]
    have := dropWhile_head_not isWsChar s.data c hc
    simp [this]

theorem replaceGo_cons (r : Reg) (fuel : Nat) (prev : Option Char) (c : Char) (cs : Chars)
    (hc : isWsChar c = false) :
    ∃ d ds, replaceGo r ("[session]".data) fuel prev (c :: cs) = d :: ds ∧ isWsChar d = false := by
  cases fuel with
  | zero => exact ⟨c, cs, rfl, hc⟩
  | succ n =>
    simp only [replaceGo]
    cases hbm : bestMatch r prev (c :: cs) with
    | none => exact ⟨c, _, rfl, hc⟩
    | some pr => exact ⟨'[', _, rfl, by decide⟩

theorem regexReplaceAll_headNonWs (r : Reg) (s : String) (h : headNonWs s = true) :
    headNonWs (regexReplaceAll r "[session]" s) = true := by
  unfold headNonWs at h
  unfold regexReplaceAll
  rw [headNonWs_mk]
  cases hd : s.data with
  | nil => rw [hd] at h; simp at h
  | cons c cs =>
    rw [hd] at h
    simp only [List.head?] at h
    have hc : isWsChar c = false := by
      cases hic : isWsChar c
      · rfl
      · rw [hic] at h; simp at h
    obtain ⟨d, ds, heq, hdws⟩ := replaceGo_cons r (c :: cs).length none c cs hc
    rw [heq]
    simp [hdws]

theorem redact_fold_headNonWs :
    ∀ (pats : List Reg) (s : String), headNonWs s = true →
      headNonWs (pats.foldl (fun out pat => regexReplaceAll pat "[session]" out) s) = true := by
  intro pats
  induction pats with
  | nil => intro s h; exact h
  | cons p ps ih =>
    intro s h
    simp only [List.foldl_cons]
    exact ih _ (regexReplaceAll_headNonWs p s h)

theorem jsTrim_mk_cons_ne (c : Char) (cs : Chars) (hc : isWsChar c = false) :
    jsTrim (String.mk (c :: cs)) ≠ "" := by
  unfold jsTrim
  rw [show (String.mk (c :: cs)).data = c :: cs from rfl,
    List.dropWhile_cons_of_neg (by simp [hc])]
  simp only [trimTrail]
  rw [if_neg (by simp [hc])]
  exact mk_ne_empty _ _

theorem jsTrim_ne_empty_of_headNonWs (s : String) (h : headNonWs s = true) : jsTrim s ≠ "" := by
  unfold headNonWs at h
  cases hd : s.data with
  | nil => rw [hd] at h; simp at h
  | cons c cs =>
    rw [hd] at h
    simp only [List.head?] at h
    have hc : isWsChar c = false := by
      cases hic : isWsChar c
      · rfl
      · rw [hic] at h; simp at h
    have : s = String.mk (c :: cs) := by
      cases s
      simp at hd
      rw [hd]
    rw [this]
    exact jsTrim_mk_cons_ne c cs hc

theorem sanitize_ne_empty_of_headNonWs (s : String) (h : headNonWs s = true) :
    sanitizePromptText s ≠ "" := by
  unfold sanitizePromptText
  apply jsTrim_ne_empty_of_headNonWs
  have h1 : headNonWs (redactSessionIdentifiers s) = true := by
    unfold redactSessionIdentifiers
    exact redact_fold_headNonWs SESSION_ID_PATTERNS s h
  unfold headNonWs at h1
  rw [headNonWs_mk]
  cases hd : (redactSessionIdentifiers s).data with
  | nil => rw [hd] at h1; simp at h1
  | cons c cs =>
    rw [hd] at h1
    simp only [List.head?] at h1
    have hc : isWsChar c = false := by
      cases hic : isWsChar c
      · rfl
      · rw [hic] at h1; simp at h1
    rw [show collapseGo false (c :: cs) = c :: collapseGo false cs by simp [collapseGo, hc]]
    simp [hc]

theorem pickDetail_headNonWs (l : List (Option String)) (h : pickDetail l ≠ "") :
    headNonWs (pickDetail l) = true := by
  induction l with
  | nil => simp [pickDetail] at h
  | cons o rest ih =>
    cases o with
    | none => simp only [pickDetail] at h ⊢; exact ih h
    | some v =>
      simp only [pickDetail] at h ⊢
      by_cases hv : jsTrim v = ""
      · rw [if_pos hv] at h ⊢
        exact ih h
      · rw [if_neg hv] at h ⊢
        exact jsTrim_headNonWs v hv

theorem extractCommand_headNonWs (e : KEvent) (h : extractCommand e ≠ "") :
    headNonWs (extractCommand e) = true := by
  unfold extractCommand at h ⊢
  by_cases ht : e.type = EType.tool_call
  · rw [if_neg (by simp [ht])] at h ⊢
    by_cases hd : pickDetail [e.details.command, e.details.cmd] = ""
    · rw [if_neg (by simpa using hd)] at h ⊢
      exact pickDetail_headNonWs _ h
    · rw [if_pos (by simpa using hd)] at h ⊢
      exact pickDetail_headNonWs _ hd
  · rw [if_pos (by simp [ht])] at h
    exact absurd rfl h

/-! ### Matches survive appending text (used for the enforced security callout) -/

theorem starSplits_suffix (p : Char → Bool) :
    ∀ (l : Chars) (prev : Option Char) (pr : Option Char × Chars),
      pr ∈ starSplits p prev l → pr.2 <:+ l := by
  intro l
  induction l with
  | nil =>
    intro prev pr h
    simp [starSplits] at h
    subst h
    exact List.suffix_refl _
  | cons c cs ih =>
    intro prev pr h
    simp only [starSplits] at h
    rcases List.mem_cons.1 h with h | h
    · subst h
      exact List.suffix_refl _
    · by_cases hp : p c
      · rw [if_pos hp] at h
        exact (ih (some c) pr h).trans (List.suffix_cons c cs)
      · rw [if_neg hp] at h
        simp at h

theorem repSplits_suffix (p : Char → Bool) :
    ∀ (l : Chars) (lo hi : Nat) (prev : Option Char) (pr : Option Char × Chars),
      pr ∈ repSplits p lo hi prev l → pr.2 <:+ l := by
  intro l
  induction l with
  | nil =>
    intro lo hi prev pr h
    match lo, hi with
    | 0, 0 => simp [repSplits] at h; subst h; exact List.suffix_refl _
    | 0, _ + 1 => simp [repSplits] at h; subst h; exact List.suffix_refl _
    | _ + 1, 0 => simp [repSplits] at h
    | _ + 1, _ + 1 => simp [repSplits] at h
  | cons c cs ih =>
    intro lo hi prev pr h
    match lo, hi with
    | 0, 0 => simp [repSplits] at h; subst h; exact List.suffix_refl _
    | 0, hi + 1 =>
      simp only [repSplits] at h
      rcases List.mem_cons.1 h with h | h
      · subst h; exact List.suffix_refl _
      · by_cases hp : p c
        · rw [if_pos hp] at h
          exact (ih 0 hi (some c) pr h).trans (List.suffix_cons c cs)
        · rw [if_neg hp] at h; simp at h
    | lo + 1, 0 => simp [repSplits] at h
    | lo + 1, hi + 1 =>
      simp only [repSplits] at h
      by_cases hp : p c
      · rw [if_pos hp] at h
        exact (ih lo hi (some c) pr h).trans (List.suffix_cons c cs)
      · rw [if_neg hp] at h; simp at h

theorem mrun_suffix :
    ∀ (r : Reg) (prev : Option Char) (l : Chars) (pr : Option Char × Chars),
      pr ∈ mrun r prev l → pr.2 <:+ l := by
  intro r
  induction r with
  | eps =>
    intro prev l pr h
    simp [mrun] at h
    subst h
    exact List.suffix_refl _
  | ch p =>
    intro prev l pr h
    cases l with
    | nil => simp [mrun] at h
    | cons c cs =>
      simp only [mrun] at h
      by_cases hp : p c
      · rw [if_pos hp] at h
        simp at h
        subst h
        exact List.suffix_cons c cs
      · rw [if_neg hp] at h
        simp at h
  | cat a b iha ihb =>
    intro prev l pr h
    simp only [mrun] at h
    rcases List.mem_flatMap.1 h with ⟨q, hq, hpr⟩
    exact (ihb q.1 q.2 pr hpr).trans (iha prev l q hq)
  | alt a b iha ihb =>
    intro prev l pr h
    simp only [mrun] at h
    rcases List.mem_append.1 h with h | h
    · exact iha prev l pr h
    · exact ihb prev l pr h
  | chStar p =>
    intro prev l pr h
    exact starSplits_suffix p l prev pr h
  | chRep p lo hi =>
    intro prev l pr h
    exact repSplits_suffix p l lo hi prev pr h
  | wb =>
    intro prev l pr h
    simp only [mrun] at h
    by_cases hb : atBoundary prev l
    · rw [if_pos hb] at h; simp at h; subst h; exact List.suffix_refl _
    · rw [if_neg hb] at h; simp at h
  | bos =>
    intro prev l pr h
    simp only [mrun] at h
    by_cases hb : prev.isNone
    · rw [if_pos hb] at h; simp at h; subst h; exact List.suffix_refl _
    · rw [if_neg hb] at h; simp at h
  | eos =>
    intro prev l pr h
    simp only [mrun] at h
    by_cases hb : l.isEmpty
    · rw [if_pos hb] at h; simp at h; subst h; exact List.suffix_refl _
    · rw [if_neg hb] at h; simp at h

theorem starSplits_append (p : Char → Bool) :
    ∀ (l : Chars) (prev : Option Char) (l' : Chars) (pr : Option Char × Chars),
      pr ∈ starSplits p prev l →
      (pr.1, pr.2 ++ l') ∈ starSplits p prev (l ++ l') := by
  intro l
  induction l with
  | nil =>
    intro prev l' pr h
    simp [starSplits] at h
    subst h
    cases l' with
    | nil => simp [starSplits]
    | cons c cs => simp [starSplits]
  | cons c cs ih =>
    intro prev l' pr h
    simp only [starSplits] at h
    rcases List.mem_cons.1 h with h | h
    · subst h
      simp [starSplits]
    · by_cases hp : p c
      · rw [if_pos hp] at h
        have := ih (some c) l' pr h
        simp only [List.cons_append, starSplits]
        rw [if_pos hp]
        exact List.mem_cons_of_mem _ this
      · rw [if_neg hp] at h
        simp at h

theorem repSplits_append (p : Char → Bool) :
    ∀ (l : Chars) (lo hi : Nat) (prev : Option Char) (l' : Chars) (pr : Option Char × Chars),
      pr ∈ repSplits p lo hi prev l →
      (pr.1, pr.2 ++ l') ∈ repSplits p lo hi prev (l ++ l') := by
  intro l
  induction l with
  | nil =>
    intro lo hi prev l' pr h
    match lo, hi with
    | 0, 0 =>
      simp [repSplits] at h
      subst h
      simp [repSplits]
    | 0, hi + 1 =>
      simp [repSplits] at h
      subst h
      cases l' with
      | nil => simp [repSplits]
      | cons c cs => simp [repSplits]
    | _ + 1, 0 => simp [repSplits] at h
    | _ + 1, _ + 1 => simp [repSplits] at h
  | cons c cs ih =>
    intro lo hi prev l' pr h
    match lo, hi with
    | 0, 0 =>
      simp [repSplits] at h
      subst h
      simp [repSplits]
    | 0, hi + 1 =>
      simp only [repSplits] at h
      rcases List.mem_cons.1 h with h | h
      · subst h
        simp [repSplits]
      · by_cases hp : p c
        · rw [if_pos hp] at h
          have := ih 0 hi (some c) l' pr h
          simp only [List.cons_append, repSplits]
          rw [if_pos hp]
          exact List.mem_cons_of_mem _ this
        · rw [if_neg hp] at h
          simp at h
    | lo + 1, 0 => simp [repSplits] at h
    | lo + 1, hi + 1 =>
      simp only [repSplits] at h
      by_cases hp : p c
      · rw [if_pos hp] at h
        have := ih lo hi (some c) l' pr h
        simp only [List.cons_append, repSplits]
        rw [if_pos hp]
        exact this
      · rw [if_neg hp] at h
        simp at h

theorem mrun_append :
    ∀ (r : Reg), noEos r = true →
      ∀ (prev : Option Char) (l l' : Chars) (pr : Option Char × Chars),
        pr ∈ mrun r prev l → (pr.2 ≠ [] ∨ headNotWord l' = true) →
        (pr.1, pr.2 ++ l') ∈ mrun r prev (l ++ l') := by
  intro r
  induction r with
  | eps =>
    intro _ prev l l' pr h _
    simp [mrun] at h
    subst h
    simp [mrun]
  | ch p =>
    intro _ prev l l' pr h _
    cases l with
    | nil => simp [mrun] at h
    | cons c cs =>
      simp only [mrun] at h
      by_cases hp : p c
      · rw [if_pos hp] at h
        simp at h
        subst h
        simp only [List.cons_append, mrun]
        rw [if_pos hp]
        simp
      · rw [if_neg hp] at h
        simp at h
  | cat a b iha ihb =>
    intro hno prev l l' pr h hside
    simp only [noEos, Bool.and_eq_true] at hno
    simp only [mrun] at h ⊢
    rcases List.mem_flatMap.1 h with ⟨q, hq, hpr⟩
    have hsideA : q.2 ≠ [] ∨ headNotWord l' = true := by
      rcases hside with hne | hw
      · left
        intro hq2
        have hsuf := mrun_suffix b q.1 q.2 pr hpr
        rw [hq2] at hsuf
        exact hne (List.suffix_nil.1 hsuf)
      · exact Or.inr hw
    have ha := iha hno.1 prev l l' q hq hsideA
    have hb := ihb hno.2 q.1 q.2 l' pr hpr hside
    exact List.mem_flatMap.2 ⟨(q.1, q.2 ++ l'), ha, hb⟩
  | alt a b iha ihb =>
    intro hno prev l l' pr h hside
    simp only [noEos, Bool.and_eq_true] at hno
    simp only [mrun] at h ⊢
    rcases List.mem_append.1 h with h | h
    · exact List.mem_append.2 (Or.inl (iha hno.1 prev l l' pr h hside))
    · exact List.mem_append.2 (Or.inr (ihb hno.2 prev l l' pr h hside))
  | chStar p =>
    intro _ prev l l' pr h _
    exact starSplits_append p l prev l' pr h
  | chRep p lo hi =>
    intro _ prev l l' pr h _
    exact repSplits_append p l lo hi prev l' pr h
  | wb =>
    intro _ prev l l' pr h hside
    simp only [mrun] at h ⊢
    by_cases hb : atBoundary prev l
    · rw [if_pos hb] at h
      simp at h
      subst h
      have hb' : atBoundary prev (l ++ l') = true := by
        cases l with
        | cons c cs => simpa [atBoundary] using hb
        | nil =>
          simp only [List.nil_append]
          rcases hside with hne | hw
          · exact absurd rfl hne
          · simp only [atBoundary, List.head?] at hb ⊢
            cases l' with
            | nil => simpa using hb
            | cons c cs =>
              simp only [headNotWord, List.head?] at hw
              simp only [isWordOpt] at hb ⊢
              simp at hw
              simp [hw]
              simpa using hb
      rw [if_pos hb']
      simp
    · rw [if_neg hb] at h
      simp at h
  | bos =>
    intro _ prev l l' pr h _
    simp only [mrun] at h ⊢
    by_cases hb : prev.isNone
    · rw [if_pos hb] at h
      simp at h
      subst h
      rw [if_pos hb]
      simp
    · rw [if_neg hb] at h
      simp at h
  | eos =>
    intro hno
    simp [noEos] at hno

theorem rsearch_append (r : Reg) (hno : noEos r = true) :
    ∀ (l : Chars) (prev : Option Char) (l' : Chars),
      rsearch r prev l = true → headNotWord l' = true →
      rsearch r prev (l ++ l') = true := by
  intro l
  induction l with
  | nil =>
    intro prev l' h hl'
    rw [rsearch.eq_def] at h
    simp at h
    cases hm : mrun r prev [] with
    | nil => rw [hm] at h; simp at h
    | cons q qs =>
      have hq : q ∈ mrun r prev [] := by rw [hm]; exact List.mem_cons_self _ _
      have := mrun_append r hno prev [] l' q hq (Or.inr hl')
      rw [rsearch.eq_def]
      simp only [List.nil_append] at this ⊢
      have hne := List.ne_nil_of_mem this
      simp [List.isEmpty_iff, hne]
  | cons c cs ih =>
    intro prev l' h hl'
    rw [rsearch.eq_def] at h
    rw [List.cons_append, rsearch.eq_def]
    rcases Bool.or_eq_true_iff.1 h with h1 | h2
    · cases hm : mrun r prev (c :: cs) with
      | nil => rw [hm] at h1; simp at h1
      | cons q qs =>
        have hq : q ∈ mrun r prev (c :: cs) := by rw [hm]; exact List.mem_cons_self _ _
        have := mrun_append r hno prev (c :: cs) l' q hq (Or.inr hl')
        rw [List.cons_append] at this
        have hne := List.ne_nil_of_mem this
        apply Bool.or_eq_true_iff.2
        left
        simp [List.isEmpty_iff, hne]
    · apply Bool.or_eq_true_iff.2
      right
      exact ih (some c) l' h2 hl'

theorem rsearch_seed (r : Reg) (hno : noEos r = true) (l l' : Chars)
    (h : (mrun r none l).any (fun pr => !pr.2.isEmpty) = true) :
    rsearch r none (l ++ l') = true := by
  rcases List.any_eq_true.1 h with ⟨pr, hmem, hne⟩
  have hne' : pr.2 ≠ [] := by
    intro he
    rw [he] at hne
    simp at hne
  have h2 := mrun_append r hno none l l' pr hmem (Or.inl hne')
  rw [rsearch.eq_def]
  apply Bool.or_eq_true_iff.2
  left
  have := List.ne_nil_of_mem h2
  simp [List.isEmpty_iff, this]

/-! ### Security findings are produced and never dropped -/

theorem push_ne_nil (fs : List SecurityFinding) (f : SecurityFinding) :
    pushSecurityFinding fs f ≠ [] := by
  unfold pushSecurityFinding
  by_cases h : fs.any (fun item => findingKey item = findingKey f)
  · rw [if_pos h]
    rcases List.any_eq_true.1 h with ⟨x, hx, _⟩
    exact List.ne_nil_of_mem hx
  · rw [if_neg h]
    simp

theorem foldl_push_ne (src : String) (evidence : String) :
    ∀ (rules : List SecurityRule) (fs : List SecurityFinding), fs ≠ [] →
      rules.foldl
        (fun fs rule =>
          if rtest rule.pattern src then
            pushSecurityFinding fs
              { severity := rule.severity, signal := rule.signal, evidence := evidence }
          else fs)
        fs ≠ [] := by
  intro rules
  induction rules with
  | nil => intro fs h; exact h
  | cons r rs ih =>
    intro fs h
    simp only [List.foldl_cons]
    apply ih
    by_cases hr : rtest r.pattern src
    · rw [if_pos hr]; exact push_ne_nil _ _
    · rw [if_neg hr]; exact h

theorem foldl_push_hit (src : String) (evidence : String) :
    ∀ (rules : List SecurityRule) (fs : List SecurityFinding),
      (∃ r ∈ rules, rtest r.pattern src = true) →
      rules.foldl
        (fun fs rule =>
          if rtest rule.pattern src then
            pushSecurityFinding fs
              { severity := rule.severity, signal := rule.signal, evidence := evidence }
          else fs)
        fs ≠ [] := by
  intro rules
  induction rules with
  | nil => intro fs h; simp at h
  | cons r rs ih =>
    intro fs h
    rcases h with ⟨x, hx, hxt⟩
    simp only [List.foldl_cons]
    rcases List.mem_cons.1 hx with hx | hx
    · subst hx
      rw [if_pos hxt]
      exact foldl_push_ne src evidence rs _ (push_ne_nil _ _)
    · exact ih _ ⟨x, hx, hxt⟩

theorem data_ne_nil (s : String) (h : s ≠ "") : s.data ≠ [] := by
  intro hd
  apply h
  cases s
  simp at hd
  rw [hd]

theorem detect_preserve (fs : List SecurityFinding) (src : String) (rules : List SecurityRule)
    (h : fs ≠ []) : detectSecurityFindings fs src rules ≠ [] := by
  unfold detectSecurityFindings
  by_cases he : String.mk ((sanitizePromptText src).data.take 140) = ""
  · rw [if_pos he]; exact h
  · rw [if_neg he]; exact foldl_push_ne src _ rules fs h

theorem detect_hit (fs : List SecurityFinding) (src : String) (rules : List SecurityRule)
    (hsan : sanitizePromptText src ≠ "") (hmatch : ∃ r ∈ rules, rtest r.pattern src = true) :
    detectSecurityFindings fs src rules ≠ [] := by
  unfold detectSecurityFindings
  have hne : (sanitizePromptText src).data ≠ [] := data_ne_nil _ hsan
  have htake := take_ne_nil_of_ne_nil _ 140 hne (by decide)
  have hev : String.mk ((sanitizePromptText src).data.take 140) ≠ "" := by
    cases ht : (sanitizePromptText src).data.take 140 with
    | nil => exact absurd ht htake
    | cons a t => exact mk_ne_empty a t
  rw [if_neg hev]
  exact foldl_push_hit src _ rules fs hmatch

theorem assessStep_sf (acc : AssessAcc) (e : KEvent) :
    (assessStep acc e).securityFindings =
      if e.type = EType.tool_call then
        (if extractTouchedPath e ≠ "" then
          detectSecurityFindings
            (if extractCommand e ≠ "" then
              detectSecurityFindings acc.securityFindings (extractCommand e)
                SECURITY_COMMAND_RULES
             else acc.securityFindings)
            (extractTouchedPath e) SECURITY_PATH_RULES
         else
          (if extractCommand e ≠ "" then
            detectSecurityFindings acc.securityFindings (extractCommand e)
              SECURITY_COMMAND_RULES
           else acc.securityFindings))
      else acc.securityFindings := by
  by_cases htc : e.type = EType.tool_call <;>
    by_cases hcmd : extractCommand e = "" <;>
      by_cases hpath : extractTouchedPath e = "" <;>
        simp [assessStep, htc, hcmd, hpath] <;>
          split_ifs <;> rfl

theorem assessStep_sf_preserve (acc : AssessAcc) (e : KEvent)
    (h : acc.securityFindings ≠ []) : (assessStep acc e).securityFindings ≠ [] := by
  rw [assessStep_sf]
  split_ifs with h1 h2 h3 h4
  · exact detect_preserve _ _ _ (detect_preserve _ _ _ h)
  · exact detect_preserve _ _ _ h
  · exact detect_preserve _ _ _ h
  · exact h
  · exact h

theorem assessStep_sf_hit (acc : AssessAcc) (e : KEvent)
    (htc : e.type = EType.tool_call)
    (hm : matchesSecurityCommandRule (extractCommand e) = true) :
    (assessStep acc e).securityFindings ≠ [] := by
  have hcmd : extractCommand e ≠ "" := by
    intro h0
    rw [h0] at hm
    have hfalse : matchesSecurityCommandRule "" = false := by decide
    rw [hfalse] at hm
    exact Bool.false_ne_true hm
  have hsan : sanitizePromptText (extractCommand e) ≠ "" :=
    sanitize_ne_empty_of_headNonWs _ (extractCommand_headNonWs e hcmd)
  have hx : ∃ r ∈ SECURITY_COMMAND_RULES, rtest r.pattern (extractCommand e) = true := by
    unfold matchesSecurityCommandRule at hm
    rcases List.any_eq_true.1 hm with ⟨r, hr, hrt⟩
    exact ⟨r, hr, hrt⟩
  have hbase : detectSecurityFindings acc.securityFindings (extractCommand e)
      SECURITY_COMMAND_RULES ≠ [] := detect_hit _ _ _ hsan hx
  rw [assessStep_sf, if_pos htc, if_pos hcmd]
  by_cases hpath : extractTouchedPath e ≠ ""
  · rw [if_pos hpath]
    exact detect_preserve _ _ _ hbase
  · rw [if_neg hpath]
    exact hbase

theorem foldl_assess_preserve :
    ∀ (events : List KEvent) (acc : AssessAcc), acc.securityFindings ≠ [] →
      (events.foldl assessStep acc).securityFindings ≠ [] := by
  intro events
  induction events with
  | nil => intro acc h; exact h
  | cons e es ih =>
    intro acc h
    simp only [List.foldl_cons]
    exact ih _ (assessStep_sf_preserve acc e h)

theorem foldl_assess_hit :
    ∀ (events : List KEvent) (acc : AssessAcc),
      (∃ e ∈ events, e.type = EType.tool_call ∧
        matchesSecurityCommandRule (extractCommand e) = true) →
      (events.foldl assessStep acc).securityFindings ≠ [] := by
  intro events
  induction events with
  | nil => intro acc h; simp at h
  | cons e es ih =>
    intro acc h
    rcases h with ⟨x, hx, hxt, hxm⟩
    simp only [List.foldl_cons]
    rcases List.mem_cons.1 hx with hx | hx
    · subst hx
      exact foldl_assess_preserve es _ (assessStep_sf_hit acc x hxt hxm)
    · exact ih _ ⟨x, hx, hxt, hxm⟩

theorem buildAssessment_security_ne (events : List KEvent) (sessionTitle : Option String)
    (h : ∃ e ∈ events, e.type = EType.tool_call ∧
        matchesSecurityCommandRule (extractCommand e) = true) :
    (buildCommentaryAssessment events sessionTitle).security ≠ SecurityState.clean := by
  have hsf := foldl_assess_hit events {} h
  simp only [buildCommentaryAssessment]
  split_ifs with h1 h2
  · exact fun hcontra => SecurityState.noConfusion hcontra
  · exact fun hcontra => SecurityState.noConfusion hcontra
  · exfalso
    apply hsf
    rcases List.eq_nil_or_concat (List.foldl assessStep {} events).securityFindings with hn | ⟨l, a, hc⟩
    · exact hn
    · exfalso
      apply h2
      rw [hc]
      simp

/-! ### The emitted commentary always carries the security callout -/

theorem headNotWord_cons (c : Char) (l : Chars) (h : isWordChar c = false) :
    headNotWord (c :: l) = true := by
  simp [headNotWord, h]

set_option maxRecDepth 4000 in
theorem secPrefix_alert (s : String) :
    rtest securitySignalPattern ("SECURITY ALERT: " ++ s) = true := by
  unfold rtest
  rw [String.data_append]
  exact rsearch_seed securitySignalPattern (by decide) _ _ (by decide)

set_option maxRecDepth 4000 in
theorem secPrefix_watch (s : String) :
    rtest securitySignalPattern ("SECURITY WATCH: " ++ s) = true := by
  unfold rtest
  rw [String.data_append]
  exact rsearch_seed securitySignalPattern (by decide) _ _ (by decide)

/-- A security mention survives appending more text that starts with a
newline (the deterministic closing line is appended as `"\n" ++ …`). -/
theorem rtest_append_nl (s t : String)
    (h : rtest securitySignalPattern s = true) :
    rtest securitySignalPattern ((s ++ "\n") ++ t) = true := by
  unfold rtest at h ⊢
  rw [String.data_append, String.data_append, List.append_assoc]
  apply rsearch_append securitySignalPattern (by decide) s.data none ("\n".data ++ t.data) h
  have hlist : "\n".data ++ t.data = '\n' :: t.data := rfl
  rw [hlist]
  exact headNotWord_cons _ _ (by decide)

/-- Once the text carries a security mention, the closing-line pass keeps it. -/
theorem closing_keeps_security (a : CommentaryAssessment) (s : String)
    (hs : rtest securitySignalPattern s = true) :
    rtest securitySignalPattern
      (if !(rtest closingLinePattern s) then s ++ "\n" ++ createClosingLine a else s) = true := by
  by_cases hc : rtest closingLinePattern s
  · simp only [hc]
    simpa using hs
  · simp only [hc]
    simpa using rtest_append_nl s (createClosingLine a) hs

theorem applySignals_security (a : CommentaryAssessment)
    (h : a.security ≠ SecurityState.clean) (text : String) :
    rtest securitySignalPattern (applyAssessmentSignals text a) = true := by
  unfold applyAssessmentSignals
  simp only []
  generalize (if jsTrim text = "" then "Agent completed actions in this session."
    else jsTrim text) = out1
  by_cases hs : rtest securitySignalPattern out1
  · simp only [hs, Bool.not_true, Bool.false_and, Bool.false_eq_true, if_false]
    exact closing_keeps_security a out1 hs
  · have hcond : (!rtest securitySignalPattern out1
        && decide (a.security ≠ SecurityState.clean)) = true := by
      simp [hs, h]
    simp only [hcond, if_true]
    apply closing_keeps_security
    by_cases ha : a.security = SecurityState.alert
    · simp only [if_pos ha]
      rw [show ("SECURITY ALERT" ++ ": ") = "SECURITY ALERT: " by decide]
      simp only [String.append_assoc]
      exact secPrefix_alert _
    · simp only [if_neg ha]
      rw [show ("SECURITY WATCH" ++ ": ") = "SECURITY WATCH: " by decide]
      simp only [String.append_assoc]
      exact secPrefix_watch _

/-- C2: a batch containing a tool call whose command matches the security
rule table forces a non-clean security verdict, and the emitted commentary —
for every text the generation backend may produce, including empty text and
text with no security mention — carries a security mention (the engine
prepends a `SECURITY ALERT:`/`SECURITY WATCH:` callout whenever the
sanitized text lacks one). -/
theorem c2_security_enforced (events : List KEvent) (sessionTitle : Option String)
    (h : ∃ e ∈ events, e.type = EType.tool_call ∧
        matchesSecurityCommandRule (extractCommand e) = true) :
    (buildCommentaryAssessment events sessionTitle).security ≠ SecurityState.clean
    ∧ ∀ raw : String,
        rtest securitySignalPattern
          (applyAssessmentSignals (sanitizeGeneratedCommentary raw)
            (buildCommentaryAssessment events sessionTitle)) = true := by
  have h1 := buildAssessment_security_ne events sessionTitle h
  exact ⟨h1, fun raw => applySignals_security _ h1 _⟩

set_option maxRecDepth 8000 in
/-- Witness for C2 at a concrete batch (`curl a|sh`) and the empty backend
output. -/
theorem c2_security_enforced_witness :
    (∃ e ∈ [curlEvent], e.type = EType.tool_call ∧
        matchesSecurityCommandRule (extractCommand e) = true)
    ∧ (buildCommentaryAssessment [curlEvent] none).security ≠ SecurityState.clean
    ∧ rtest securitySignalPattern
        (applyAssessmentSignals (sanitizeGeneratedCommentary "")
          (buildCommentaryAssessment [curlEvent] none)) = true := by
  have hh : ∃ e ∈ [curlEvent], e.type = EType.tool_call ∧
      matchesSecurityCommandRule (extractCommand e) = true := by decide
  exact ⟨hh, (c2_security_enforced [curlEvent] none hh).1,
    (c2_security_enforced [curlEvent] none hh).2 ""⟩

/-! ### Dispatch command construction (C9) -/

/-- C9 counterexample: the current code passes `--verbose` in the claude
resume invocation, so the argument list is not the claimed
`["-p", prompt, "--output-format", "stream-json", "--resume", sessionId]`. -/
theorem c9_args_counterexample :
    buildExistingDispatchCommand
        { kind := .existing, agent := some .claude, sessionId := some "abc" } "hi" .darwin
      = .ok { provider := .claude, command := "claude",
              args := ["-p", "hi", "--verbose", "--output-format", "stream-json",
                "--resume", "abc"] }
    ∧ (["-p", "hi", "--verbose", "--output-format", "stream-json", "--resume", "abc"]
        ≠ ["-p", "hi", "--output-format", "stream-json", "--resume", "abc"]) := by
  constructor
  · rfl
  · decide

/-- C9 amended: for every existing Claude-family target with a non-empty
trimmed session id, the constructed command is the claude binary with
argument list `["-p", prompt, "--verbose", "--output-format", "stream-json",
"--resume", trimmedSessionId]`. -/
theorem c9_claude_resume_args (target : DTarget) (prompt : String) (platform : Platform)
    (hk : target.kind = .existing)
    (ha : target.agent = some Agent.claude)
    (hs : jsTrim (target.sessionId.getD "") ≠ "") :
    buildExistingDispatchCommand target prompt platform
      = .ok { provider := .claude, command := getProviderCliCommand .claude platform,
              args := ["-p", prompt, "--verbose", "--output-format", "stream-json",
                "--resume", jsTrim (target.sessionId.getD "")] } := by
  unfold buildExistingDispatchCommand
  rw [if_neg (by simp [hk])]
  rw [ha]
  simp only []
  rw [if_neg hs]
  rw [if_neg (by simp)]

/-- Witness for C9 amended at a concrete target. -/
theorem c9_claude_resume_args_witness :
    buildExistingDispatchCommand
        { kind := .existing, agent := some .claude, sessionId := some "abc" } "fix it" .win32
      = .ok { provider := .claude, command := "claude.cmd",
              args := ["-p", "fix it", "--verbose", "--output-format", "stream-json",
                "--resume", "abc"] } := by
  have := c9_claude_resume_args
    { kind := .existing, agent := some .claude, sessionId := some "abc" } "fix it" .win32
    rfl rfl (by decide)
  simpa using this

/-! ### Dispatch to an inactive target (C7) -/

/-- C7: dispatching a non-empty instruction to an existing-session target
whose (agent, session id) pair is absent from the current Session View emits
exactly `queued` then `failed`, and launches no subprocess — for every
environment behaviour. -/
theorem c7_inactive_target_fails (active : List SessionInfo) (request : DispatchRequest)
    (w : DispatchWorld) (nse : Option String) (nss : Bool) (platform : Platform)
    (hk : request.target.kind = .existing)
    (hp : jsTrim request.prompt ≠ "")
    (habsent : ∀ s ∈ active, ¬(request.target.agent = some s.agent ∧
        jsToLower s.id = jsToLower (jsTrim (request.target.sessionId.getD "")))) :
    dispatchF active request w nse nss platform = ([.queued, .failed], false) := by
  unfold dispatchF
  rw [if_neg hp]
  simp only [hk, if_pos]
  unfold dispatchExistingSession
  cases hag : request.target.agent with
  | none => simp
  | some a =>
    simp only []
    by_cases hsid : jsToLower (jsTrim (request.target.sessionId.getD "")) = ""
    · rw [if_pos hsid]
    · rw [if_neg hsid]
      have hfind : active.find? (fun session =>
          session.agent = a && jsToLower session.id
            = jsToLower (jsTrim (request.target.sessionId.getD ""))) = none := by
        rw [List.find?_eq_none]
        intro s hs
        intro hcontra
        rw [Bool.and_eq_true] at hcontra
        rcases hcontra with ⟨h1, h2⟩
        apply habsent s hs
        constructor
        · rw [hag]
          have := of_decide_eq_true h1
          rw [this]
        · exact of_decide_eq_true h2
      rw [hfind]

/-- Witness for C7: concrete inactive target. -/
theorem c7_inactive_target_fails_witness :
    dispatchF [dSession]
        { target := { kind := .existing, agent := some .codex, sessionId := some "nope" },
          prompt := "do it", origin := .cli }
        c3World none false .darwin = ([.queued, .failed], false) := by
  apply c7_inactive_target_fails
  · rfl
  · decide
  · decide

/-! ### Post-hoc delivery verification (C3) -/

/-- C3 counterexample: the subprocess exits 0 before the instruction is
observed, the target file's mtime changed but no bytes were appended, and
the instruction's first line (`"hi"`, shorter than the 4-character signature
threshold) appears nowhere — yet the dispatch reports `sent`. -/
theorem c3_short_prompt_counterexample :
    dispatchF [dSession] { target := dTargetSess1, prompt := "hi", origin := .cli }
        c3World none false .darwin = ([.queued, .started, .sent], true)
    ∧ hasSubstr (("abcd".data).drop (captureSessionFileSnapshot c3World.beforeFile).size)
        ("hi".data) = false := by
  constructor
  · rfl
  · decide

theorem build_ok (target : DTarget) (prompt : String) (platform : Platform) (ag : Agent)
    (hk : target.kind = .existing)
    (ha : target.agent = some ag)
    (hs : jsTrim (target.sessionId.getD "") ≠ "") :
    ∃ cr, buildExistingDispatchCommand target prompt platform = .ok cr := by
  unfold buildExistingDispatchCommand
  rw [if_neg (by simp [hk]), ha]
  simp only []
  rw [if_neg hs]
  cases ag with
  | codex => exact ⟨_, by rw [if_pos rfl]⟩
  | claude => exact ⟨_, by rw [if_neg (by simp)]⟩

theorem toLower_empty_of (s : String) (h : s = "") : jsToLower s = "" := by
  rw [h]; rfl

set_option maxRecDepth 4000 in
theorem verify_ok_iff (file : Option FState) (prompt : String) (before : SessionFileSnapshot) :
    verifyExistingDispatchDelivery file prompt before = .ok ()
    ↔ (∃ f, file = some f
        ∧ (before.size < f.data.data.length ∨ before.mtimeMs < f.mtimeMs)
        ∧ ((firstPromptSignature prompt).data.length < 4
            ∨ (readSessionTailSinceOffset file before.size ≠ ""
               ∧ strIncludes (jsToLower (readSessionTailSinceOffset file before.size))
                   (jsToLower (firstPromptSignature prompt)) = true))) := by
  cases file with
  | none =>
    constructor
    · intro h
      simp [verifyExistingDispatchDelivery, hasSessionFileChanged,
        captureSessionFileSnapshot] at h
    · rintro ⟨f, hf, -⟩
      exact Option.noConfusion hf
  | some f =>
    have hv : verifyExistingDispatchDelivery (some f) prompt before =
        (if (!(decide (f.data.data.length > before.size)
              || decide (f.mtimeMs > before.mtimeMs))) = true
         then Except.error "Target session did not update after dispatch"
         else if (firstPromptSignature prompt).data.length < 4 then Except.ok ()
         else if readSessionTailSinceOffset (some f) before.size = "" then
           Except.error "Target session updated but prompt text was not found"
         else if (!strIncludes (jsToLower (readSessionTailSinceOffset (some f) before.size))
             (jsToLower (firstPromptSignature prompt))) = true then
           Except.error "Prompt text was not found in target session update"
         else Except.ok ()) := rfl
    rw [hv]
    by_cases hch : (decide (f.data.data.length > before.size)
        || decide (f.mtimeMs > before.mtimeMs)) = true
    · rw [if_neg (show ¬((!(decide (f.data.data.length > before.size)
          || decide (f.mtimeMs > before.mtimeMs))) = true) by rw [hch]; decide)]
      have hchanged : before.size < f.data.data.length ∨ before.mtimeMs < f.mtimeMs := by
        rcases Bool.or_eq_true_iff.1 hch with h1 | h1
        · exact Or.inl (of_decide_eq_true h1)
        · exact Or.inr (of_decide_eq_true h1)
      by_cases hsig : (firstPromptSignature prompt).data.length < 4
      · rw [if_pos hsig]
        constructor
        · intro _
          exact ⟨f, rfl, hchanged, Or.inl hsig⟩
        · intro _
          rfl
      · rw [if_neg hsig]
        by_cases htail : readSessionTailSinceOffset (some f) before.size = ""
        · rw [if_pos htail]
          constructor
          · intro h
            exact Except.noConfusion h
          · rintro ⟨g, hg, -, hrest⟩
            rcases hrest with hlt | ⟨hne, -⟩
            · exact absurd hlt hsig
            · exact absurd htail hne
        · rw [if_neg htail]
          by_cases hinc : strIncludes (jsToLower (readSessionTailSinceOffset (some f) before.size))
              (jsToLower (firstPromptSignature prompt)) = true
          · rw [if_neg (show ¬((!strIncludes
                (jsToLower (readSessionTailSinceOffset (some f) before.size))
                (jsToLower (firstPromptSignature prompt))) = true) by simp [hinc])]
            constructor
            · intro _
              exact ⟨f, rfl, hchanged, Or.inr ⟨htail, hinc⟩⟩
            · intro _
              rfl
          · have hifalse : strIncludes
                (jsToLower (readSessionTailSinceOffset (some f) before.size))
                (jsToLower (firstPromptSignature prompt)) = false := by
              revert hinc
              cases strIncludes (jsToLower (readSessionTailSinceOffset (some f) before.size))
                (jsToLower (firstPromptSignature prompt)) <;> simp
            rw [if_pos (show (!strIncludes
                (jsToLower (readSessionTailSinceOffset (some f) before.size))
                (jsToLower (firstPromptSignature prompt))) = true by rw [hifalse]; decide)]
            constructor
            · intro h
              exact Except.noConfusion h
            · rintro ⟨g, hg, -, hrest⟩
              rcases hrest with hlt | ⟨-, hi⟩
              · exact absurd hlt hsig
              · exact absurd hi hinc
    · have horf : (decide (f.data.data.length > before.size)
          || decide (f.mtimeMs > before.mtimeMs)) = false := by
        revert hch
        cases (decide (f.data.data.length > before.size)
          || decide (f.mtimeMs > before.mtimeMs)) <;> simp
      rw [if_pos (show (!(decide (f.data.data.length > before.size)
          || decide (f.mtimeMs > before.mtimeMs))) = true by rw [horf]; decide)]
      constructor
      · intro h
        exact Except.noConfusion h
      · rintro ⟨g, hg, hchg, -⟩
        cases hg
        exfalso
        apply hch
        rcases hchg with h1 | h1
        · exact Bool.or_eq_true_iff.2 (Or.inl (decide_eq_true h1))
        · exact Bool.or_eq_true_iff.2 (Or.inr (decide_eq_true h1))

/-- C3 amended: when the subprocess finishes before the prompt is observed,
the dispatch reports `sent` iff the post-hoc verification passes, and the
verification passes iff the file is readable and grew in size or mtime AND —
only when the first line's 160-character signature has at least 4
characters — the signature occurs case-insensitively in the tail read from
2 KiB before the dispatch-start size; otherwise the dispatch reports
`failed`. -/
theorem c3_process_exit_verification (active : List SessionInfo) (target : DTarget)
    (prompt : String) (w : DispatchWorld) (platform : Platform) (ag : Agent)
    (hk : target.kind = .existing)
    (ha : target.agent = some ag)
    (hs : jsToLower (jsTrim (target.sessionId.getD "")) ≠ "")
    (hfind : (active.find? (fun session =>
        session.agent = ag && jsToLower session.id
          = jsToLower (jsTrim (target.sessionId.getD "")))).isSome = true)
    (hspawn : w.spawnError = none)
    (hack : w.ack = AckOutcome.processComplete) :
    (dispatchExistingSession active target prompt w platform = ([.started, .sent], true)
      ↔ verifyExistingDispatchDelivery w.verifyFile prompt
          (captureSessionFileSnapshot w.beforeFile) = .ok ())
    ∧ (verifyExistingDispatchDelivery w.verifyFile prompt
          (captureSessionFileSnapshot w.beforeFile) = .ok ()
        ↔ (∃ f, w.verifyFile = some f
            ∧ ((captureSessionFileSnapshot w.beforeFile).size < f.data.data.length
               ∨ (captureSessionFileSnapshot w.beforeFile).mtimeMs < f.mtimeMs)
            ∧ ((firstPromptSignature prompt).data.length < 4
                ∨ (readSessionTailSinceOffset w.verifyFile
                      (captureSessionFileSnapshot w.beforeFile).size ≠ ""
                   ∧ strIncludes (jsToLower (readSessionTailSinceOffset w.verifyFile
                         (captureSessionFileSnapshot w.beforeFile).size))
                       (jsToLower (firstPromptSignature prompt)) = true))))
    ∧ (verifyExistingDispatchDelivery w.verifyFile prompt
          (captureSessionFileSnapshot w.beforeFile) ≠ .ok () →
        dispatchExistingSession active target prompt w platform
          = ([.started, .failed], true)) := by
  have hsne : jsTrim (target.sessionId.getD "") ≠ "" := by
    intro h0
    exact hs (toLower_empty_of _ h0)
  have hdisp : ∀ res : List DState × Bool,
      (dispatchExistingSession active target prompt w platform = res
        ↔ (match verifyExistingDispatchDelivery w.verifyFile prompt
              (captureSessionFileSnapshot w.beforeFile) with
            | .ok _ => ([DState.started, DState.sent], true)
            | .error _ => ([DState.started, DState.failed], true)) = res) := by
    intro res
    unfold dispatchExistingSession
    rw [ha]
    simp only []
    rw [if_neg hs]
    rcases Option.isSome_iff_exists.1 hfind with ⟨m, hm⟩
    rw [hm]
    rcases build_ok target prompt platform ag hk ha hsne with ⟨cr, hcr⟩
    rw [hcr, hspawn, hack]
  refine ⟨?_, verify_ok_iff w.verifyFile prompt (captureSessionFileSnapshot w.beforeFile), ?_⟩
  · rw [hdisp ([DState.started, DState.sent], true)]
    cases hv : verifyExistingDispatchDelivery w.verifyFile prompt
        (captureSessionFileSnapshot w.beforeFile) with
    | ok u => cases u; simp
    | error e => simp [hv]
  · intro hne
    rw [hdisp ([DState.started, DState.failed], true)]
    cases hv : verifyExistingDispatchDelivery w.verifyFile prompt
        (captureSessionFileSnapshot w.beforeFile) with
    | ok u => cases u; exact absurd hv hne
    | error e => simp

/-- Witness for C3 amended: the appended bytes contain the prompt's first
line, so the process-complete dispatch reports `sent`. -/
theorem c3_process_exit_verification_witness :
    dispatchExistingSession [dSession] dTargetSess1 "hello world" c3GoodWorld .darwin
      = ([DState.started, DState.sent], true) := by
  have h := c3_process_exit_verification [dSession] dTargetSess1 "hello world" c3GoodWorld
    .darwin .claude rfl rfl (by decide) (by decide) rfl rfl
  exact h.1.mpr rfl


/-! ### Watcher: the ignore flag is permanent (C5) -/

theorem readNewLines_ignore (hooks : VendorHooks) (entry : WatchedFile)
    (spn : SessionProjectNames) (file : Option String) (h : entry.ignore = true) :
    (readNewLines hooks entry spn file).1.ignore = true
    ∧ (readNewLines hooks entry spn file).2.1 = spn
    ∧ (readNewLines hooks entry spn file).2.2 = [] := by
  unfold readNewLines
  rw [if_pos h]
  cases file <;> exact ⟨h, rfl, rfl⟩

/-- C5: from any tracked record whose `ignore` flag is set, every subsequent
processed input leaves the flag set and emits no events. -/
theorem c5_ignore_permanent (hooks : VendorHooks) (entry : WatchedFile)
    (spn : SessionProjectNames) (inputs : List (Option String)) (h : entry.ignore = true) :
    ∀ r ∈ runTrace hooks entry spn inputs, r.1.ignore = true ∧ r.2.2 = [] := by
  induction inputs generalizing entry spn with
  | nil => intro r hr; simp [runTrace] at hr
  | cons f fs ih =>
    intro r hr
    simp only [runTrace] at hr
    rcases List.mem_cons.1 hr with hr | hr
    · subst hr
      have hstep := readNewLines_ignore hooks entry spn f h
      exact ⟨hstep.1, hstep.2.2⟩
    · exact ih _ _ (readNewLines_ignore hooks entry spn f h).1 r hr

/-- Witness for C5 at a concrete ignored record. -/
theorem c5_ignore_permanent_witness :
    ({ filePath := "f", sessionId := "s", offset := 0, agent := .codex, ignore := true,
        projectName := "p" } : WatchedFile).ignore = true
    ∧ ((readNewLines (constHooks [])
          { filePath := "f", sessionId := "s", offset := 0, agent := .codex, ignore := true,
            projectName := "p" } [] (some "xy")).1.ignore = true
       ∧ (readNewLines (constHooks [])
          { filePath := "f", sessionId := "s", offset := 0, agent := .codex, ignore := true,
            projectName := "p" } [] (some "xy")).2.2 = []) := by
  refine ⟨rfl, ?_⟩
  apply c5_ignore_permanent (constHooks [])
    { filePath := "f", sessionId := "s", offset := 0, agent := .codex, ignore := true,
      projectName := "p" } [] [some "xy"] rfl
  simp [runTrace]

/-! ### Watcher: offsets track file sizes (C4) -/

theorem reconcile_offset (hooks : VendorHooks) (entry : WatchedFile) :
    (reconcileCodexSessionTitle hooks entry).offset = entry.offset := by
  unfold reconcileCodexSessionTitle
  repeat' split
  all_goals rfl

theorem ite_step_proj {α : Type} (p : WatchedFile × SessionProjectNames × KEvent → α)
    {c : Prop} [Decidable c] {x y : WatchedFile × SessionProjectNames × KEvent} {v : α}
    (hx : p x = v) (hy : p y = v) : p (if c then x else y) = v := by
  by_cases h : c
  · rw [if_pos h]; exact hx
  · rw [if_neg h]; exact hy

theorem match_step_proj {α : Type} (p : WatchedFile × SessionProjectNames × KEvent → α)
    (o : Option String) (f : String → WatchedFile × SessionProjectNames × KEvent)
    (z : WatchedFile × SessionProjectNames × KEvent) (v : α)
    (hf : ∀ s, p (f s) = v) (hz : p z = v) :
    p (match o with | some s => f s | none => z) = v := by
  cases o
  · exact hz
  · exact hf _

theorem processEvents_offset (hooks : VendorHooks) :
    ∀ (evs : List KEvent) (entry : WatchedFile) (spn : SessionProjectNames) (em : List KEvent),
      (processEvents hooks evs entry spn em).1.offset = entry.offset := by
  intro evs
  induction evs with
  | nil => intro entry spn em; rfl
  | cons e es ih =>
    intro entry spn em
    simp only [processEvents]
    rw [ih]
    split
    all_goals exact ite_step_proj (fun s => s.1.offset) rfl (match_step_proj (fun s => s.1.offset) _ _ _ _ (fun s => rfl) rfl)

theorem processLines_offset (hooks : VendorHooks) :
    ∀ (lines : List String) (entry : WatchedFile) (spn : SessionProjectNames)
      (em : List KEvent),
      (processLines hooks lines entry spn em).1.offset = entry.offset := by
  intro lines
  induction lines with
  | nil => intro entry spn em; rfl
  | cons line rest ih =>
    intro entry spn em
    simp only [processLines]
    split
    · rfl
    · rw [ih, processEvents_offset]
      repeat' split
      all_goals rfl

theorem readNewLines_offset (hooks : VendorHooks) (entry : WatchedFile)
    (spn : SessionProjectNames) (f : String) (h : entry.offset ≤ f.data.length) :
    (readNewLines hooks entry spn (some f)).1.offset = f.data.length := by
  unfold readNewLines
  by_cases hig : entry.ignore
  · rw [if_pos hig]
  · rw [if_neg hig]
    simp only []
    have he1 : (reconcileCodexSessionTitle hooks entry).offset = entry.offset :=
      reconcile_offset hooks entry
    by_cases hsz : f.data.length ≤ (reconcileCodexSessionTitle hooks entry).offset
    · rw [if_pos hsz]
      rw [he1] at hsz ⊢
      omega
    · rw [if_neg hsz]
      rw [processLines_offset]

/-- C4: for a run of processed change notifications over an append-only file
(sizes never shrink below the current offset), the recorded offset equals
the file size after each processed change, and the offset sequence is
monotonically non-decreasing. -/
theorem c4_offset_tracks_size (hooks : VendorHooks) (entry : WatchedFile)
    (spn : SessionProjectNames) (files : List String)
    (h : List.Chain' (· ≤ ·) (entry.offset :: files.map (fun f => f.data.length))) :
    ((runTrace hooks entry spn (files.map some)).map (fun r => r.1.offset))
        = files.map (fun f => f.data.length)
    ∧ List.Chain' (· ≤ ·)
        (entry.offset :: (runTrace hooks entry spn (files.map some)).map (fun r => r.1.offset)) := by
  have main : ∀ (fs : List String) (entry : WatchedFile) (spn : SessionProjectNames),
      List.Chain' (· ≤ ·) (entry.offset :: fs.map (fun f => f.data.length)) →
      ((runTrace hooks entry spn (fs.map some)).map (fun r => r.1.offset))
        = fs.map (fun f => f.data.length) := by
    intro fs
    induction fs with
    | nil => intro entry spn _; rfl
    | cons f rest ih =>
      intro entry spn hch
      simp only [List.map_cons] at hch
      rcases List.chain'_cons.1 hch with ⟨h1, h2⟩
      simp only [List.map_cons, runTrace]
      have hoff := readNewLines_offset hooks entry spn f h1
      have hrest := ih (readNewLines hooks entry spn (some f)).1
        (readNewLines hooks entry spn (some f)).2.1 (by rw [hoff]; exact h2)
      rw [hoff, hrest]
  refine ⟨main files entry spn h, ?_⟩
  rw [main files entry spn h]
  exact h

/-- Witness for C4 at two concrete appended snapshots. -/
theorem c4_offset_tracks_size_witness :
    ((runTrace (constHooks []) c1Entry [] (["ab", "abcd"].map some)).map
        (fun r => r.1.offset)) = ["ab", "abcd"].map (fun f => f.data.length) := by
  exact (c4_offset_tracks_size (constHooks []) c1Entry [] ["ab", "abcd"]
    (List.chain'_cons.2 ⟨by decide, List.chain'_cons.2 ⟨by decide, List.chain'_singleton _⟩⟩)).1

/-! ### Watcher: session identity is replaced, not frozen (C1) -/

/-- C1 counterexample: the record's sessionId was resolved to the non-empty
identity `"aaaa"`, yet processing one later appended line whose decoded
event carries the different non-empty identity `"bbbb"` REPLACES the
record's sessionId. -/
theorem c1_identity_not_frozen :
    c1Entry.sessionId = "aaaa"
    ∧ normalizeSessionId c1Event.sessionId c1Entry.agent = "bbbb"
    ∧ (readNewLines (constHooks [c1Event]) c1Entry [] (some "x\n")).1.sessionId = "bbbb" := by
  exact ⟨rfl, rfl, rfl⟩

/-- C1 amended: processing an event whose normalized session id is non-empty
sets the record's sessionId to that id — the LAST non-empty identity wins —
and the emitted event is restamped with it. -/
theorem c1_last_nonempty_wins (hooks : VendorHooks) (entry : WatchedFile)
    (spn : SessionProjectNames) (emitted : List KEvent) (event : KEvent)
    (h : normalizeSessionId event.sessionId entry.agent ≠ "") :
    (processEvents hooks [event] entry spn emitted).1.sessionId
        = normalizeSessionId event.sessionId entry.agent
    ∧ ∃ ev, (processEvents hooks [event] entry spn emitted).2.2 = emitted ++ [ev]
        ∧ ev.sessionId = normalizeSessionId event.sessionId entry.agent := by
  simp only [processEvents]
  by_cases heq : normalizeSessionId event.sessionId entry.agent = entry.sessionId
  · rw [heq]
    have hc : (decide ((entry.sessionId : String) ≠ "")
        && decide (entry.sessionId ≠ entry.sessionId)) = false := by simp
    rw [hc]
    rw [if_neg (show ¬(false = true) by decide)]
    refine ⟨?_, _, rfl, ?_⟩
    · exact ite_step_proj (fun s => s.1.sessionId) rfl (match_step_proj (fun s => s.1.sessionId) _ _ _ _ (fun s => rfl) rfl)
    · exact ite_step_proj (fun s => s.2.2.sessionId) rfl (match_step_proj (fun s => s.2.2.sessionId) _ _ _ _ (fun s => rfl) rfl)
  · have hc : (decide (normalizeSessionId event.sessionId entry.agent ≠ "")
        && decide (normalizeSessionId event.sessionId entry.agent ≠ entry.sessionId)) = true := by
      simp [h, heq]
    rw [hc]
    rw [if_pos (show (true = true) from rfl)]
    refine ⟨?_, _, rfl, ?_⟩
    · exact ite_step_proj (fun s => s.1.sessionId) rfl (match_step_proj (fun s => s.1.sessionId) _ _ _ _ (fun s => rfl) rfl)
    · exact ite_step_proj (fun s => s.2.2.sessionId) rfl (match_step_proj (fun s => s.2.2.sessionId) _ _ _ _ (fun s => rfl) rfl)

/-- Witness for C1 amended at the counterexample's inputs. -/
theorem c1_last_nonempty_wins_witness :
    (processEvents (constHooks []) [c1Event] c1Entry [] []).1.sessionId = "bbbb"
    ∧ ∃ ev, (processEvents (constHooks []) [c1Event] c1Entry [] []).2.2 = [] ++ [ev]
        ∧ ev.sessionId = "bbbb" := by
  have h := c1_last_nonempty_wins (constHooks []) c1Entry [] [] c1Event (by decide)
  exact h


/-! ### Commentary engine: the clean-batch invariant, the double-generation
bug (C6), the pause bug (C8), and the skipped-event frame property (C10) -/

theorem cleanConfig_empty : cleanConfig {} := by
  refine ⟨?_, ?_⟩ <;> intro x hx <;> simp at hx

theorem clean_state_of (key : String) (c : EngineConfig) (state : SessState)
    (h : cleanConfig c) (halg : alGet key c.sessions = some state) :
    ∀ e ∈ state.events, ¬ isSkippedType e :=
  fun e he => h.1 (key, state) (alGet_mem key c.sessions state halg) e he

theorem alSet_sessions_clean (key : String) (st : SessState) (c : EngineConfig)
    (h : cleanConfig c) (hst : ∀ e ∈ st.events, ¬ isSkippedType e) :
    cleanConfig { c with sessions := alSet key st c.sessions } := by
  refine ⟨?_, h.2⟩
  intro ks hks e he
  rcases mem_alSet key st c.sessions ks hks with hx | hx
  · subst hx; exact hst e he
  · exact h.1 ks hx e he

theorem drainGo_clean : ∀ (q : List String) (c : EngineConfig),
    cleanConfig c → cleanConfig (drainGo q c) := by
  intro q
  induction q with
  | nil => intro c h; exact ⟨h.1, h.2⟩
  | cons key rest ih =>
    intro c h
    simp only [drainGo]
    split
    next heq => exact ih _ ⟨h.1, h.2⟩
    next state heq =>
      split
      · exact ih _ ⟨h.1, h.2⟩
      · have hstate := clean_state_of key c state h heq
        refine ⟨?_, ?_⟩
        · intro ks hks e he
          rcases mem_alSet key { state with events := [] } c.sessions ks hks with hx | hx
          · subst hx
            exact absurd he (List.not_mem_nil e)
          · exact h.1 ks hx e he
        · intro kb hkb e he
          rcases List.mem_append.1 hkb with hkb | hkb
          · exact h.2 kb hkb e he
          · simp at hkb
            subst hkb
            exact hstate e he

theorem processFlushQueue_clean (c : EngineConfig) (h : cleanConfig c) :
    cleanConfig (processFlushQueue c) := by
  unfold processFlushQueue
  split
  · exact h
  · exact drainGo_clean c.flushQueue c h

theorem enqueueFlush_clean (key : String) (c : EngineConfig) (h : cleanConfig c) :
    cleanConfig (enqueueFlush key c) := by
  unfold enqueueFlush
  split
  · exact h
  · exact processFlushQueue_clean _ ⟨h.1, h.2⟩

theorem requestFlush_clean (key : String) (force : Bool) (c : EngineConfig)
    (h : cleanConfig c) : cleanConfig (requestFlush key force c) := by
  unfold requestFlush
  split
  next heq => exact h
  next state heq =>
    have hstate := clean_state_of key c state h heq
    have h1 : cleanConfig { c with sessions := alSet key (clearSessionTimers state) c.sessions } :=
      alSet_sessions_clean key (clearSessionTimers state) c h hstate
    simp only []
    split
    · exact h1
    · split
      · exact alSet_sessions_clean key _ _ h1 hstate
      · exact enqueueFlush_clean key _ h1

theorem ensureSessionState_clean (key : String) (c : EngineConfig) (h : cleanConfig c) :
    cleanConfig (ensureSessionState key c) := by
  unfold ensureSessionState
  cases halg : alGet key c.sessions with
  | some s => exact h
  | none =>
    refine ⟨?_, h.2⟩
    intro ks hks e he
    rcases List.mem_append.1 hks with hks | hks
    · exact h.1 ks hks e he
    · simp at hks
      subst hks
      exact absurd he (List.not_mem_nil e)

theorem addEvent_clean (e : KEvent) (c : EngineConfig) (h : cleanConfig c) :
    cleanConfig (addEvent e c) := by
  unfold addEvent
  split
  · exact h
  · split
    · exact h
    next hskip =>
      have hns : ¬ isSkippedType e := by
        intro hs
        rcases hs with hs | hs <;> simp [hs] at hskip
      have h1 := ensureSessionState_clean (sessionKey e) c h
      simp only []
      split
      next heq => exact h1
      next state heq =>
        have hstate := clean_state_of _ _ state h1 heq
        have hst' : ∀ ev ∈ state.events ++ [e], ¬ isSkippedType ev := by
          intro ev hev
          rcases List.mem_append.1 hev with hev | hev
          · exact hstate ev hev
          · simp at hev; subst hev; exact hns
        have h2 : cleanConfig { ensureSessionState (sessionKey e) c with
            sessions := alSet (sessionKey e) { state with events := state.events ++ [e] }
              (ensureSessionState (sessionKey e) c).sessions } :=
          alSet_sessions_clean _ _ _ h1 hst'
        split
        · exact requestFlush_clean _ _ _ h2
        · split
          all_goals exact alSet_sessions_clean _ _ _ h2 hst'

theorem disarmIdle_clean (key : String) (c : EngineConfig) (h : cleanConfig c) :
    cleanConfig (disarmIdle key c) := by
  unfold disarmIdle
  cases halg : alGet key c.sessions with
  | none => exact h
  | some state =>
    exact alSet_sessions_clean key _ c h (clean_state_of key c state h halg)

theorem disarmMax_clean (key : String) (c : EngineConfig) (h : cleanConfig c) :
    cleanConfig (disarmMax key c) := by
  unfold disarmMax
  cases halg : alGet key c.sessions with
  | none => exact h
  | some state =>
    exact alSet_sessions_clean key _ c h (clean_state_of key c state h halg)

theorem recentPush_clean (key : String) (text : String) (success : Bool) (c : EngineConfig)
    (h : cleanConfig c) :
    cleanConfig (if success then
      match alGet key c.sessions with
      | some state =>
        let rc := state.recentCommentary ++ [text]
        let rc := if rc.length > 5 then rc.drop 1 else rc
        { c with sessions := alSet key { state with recentCommentary := rc } c.sessions }
      | none => c
    else c) := by
  split
  · cases halg : alGet key c.sessions with
    | none => exact h
    | some state => exact alSet_sessions_clean key _ c h (clean_state_of key c state h halg)
  · exact h

theorem eraseTask_clean (key : String) (batch : List KEvent) (c : EngineConfig)
    (h : cleanConfig c) :
    cleanConfig { c with generating := false, tasks := c.tasks.erase (key, batch) } := by
  refine ⟨h.1, ?_⟩
  intro kb hkb e he
  exact h.2 kb (List.erase_subset _ _ hkb) e he

theorem completeStep3_clean (key : String) (c : EngineConfig) (h : cleanConfig c) :
    cleanConfig (match alGet key c.sessions with
      | none => c
      | some state =>
        if state.events ≠ [] then
          if state.events.length ≥ MIN_BATCH_SIZE then enqueueFlush key c
          else if !state.idleTimer then
            { c with sessions := alSet key { state with idleTimer := true } c.sessions }
          else c
        else c) := by
  split
  next heq => exact h
  next state heq =>
    split
    · split
      · exact enqueueFlush_clean key c h
      · split
        · exact alSet_sessions_clean key _ c h (clean_state_of key c state h heq)
        · exact h
    · exact h

theorem completeGeneration_clean (key : String) (batch : List KEvent) (text : String)
    (success : Bool) (c : EngineConfig) (h : cleanConfig c) :
    cleanConfig (completeGeneration key batch text success c) := by
  unfold completeGeneration
  exact drainGo_clean _ _ (completeStep3_clean key _
    (eraseTask_clean key batch _ (recentPush_clean key text success c h)))

theorem engineStep_clean (c c' : EngineConfig) (hstep : EngineStep c c')
    (h : cleanConfig c) : cleanConfig c' := by
  cases hstep with
  | addEventStep e c => exact addEvent_clean e c h
  | fireIdle key c state h1 h2 =>
    exact requestFlush_clean key false _ (disarmIdle_clean key c h)
  | fireMax key c state h1 h2 =>
    exact requestFlush_clean key true _ (disarmMax_clean key c h)
  | complete key batch text success c hmem =>
    exact completeGeneration_clean key batch text success c h
  | pauseStep c => exact ⟨h.1, h.2⟩
  | resumeStep c => exact ⟨h.1, h.2⟩

theorem engineReachable_clean (c : EngineConfig) (h : engineReachable c) :
    cleanConfig c := by
  induction h with
  | refl => exact cleanConfig_empty
  | tail hsteps hstep ih => exact engineStep_clean _ _ hstep ih

theorem step_engC1 : EngineStep ({} : EngineConfig) engC1 :=
  EngineStep.addEventStep (engEvent "a") {}

theorem step_engC2 : EngineStep engC1 engC2 :=
  EngineStep.fireMax "codex:a" engC1 ((alGet "codex:a" engC1.sessions).getD {})
    (by decide) (by decide)

theorem step_engC3 : EngineStep engC2 engC3 :=
  EngineStep.addEventStep (engEvent "a") engC2

theorem step_engC4 : EngineStep engC3 engC4 :=
  EngineStep.addEventStep (engEvent "b") engC3

theorem step_engC5 : EngineStep engC4 engC5 :=
  EngineStep.fireMax "codex:b" engC4 ((alGet "codex:b" engC4.sessions).getD {})
    (by decide) (by decide)

theorem step_engC6 : EngineStep engC5 engC6 :=
  EngineStep.complete "codex:a" [engEvent "a"] "text" true engC5 (by decide)

theorem reach_engC6 : engineReachable engC6 :=
  Relation.ReflTransGen.tail
    (Relation.ReflTransGen.tail
      (Relation.ReflTransGen.tail
        (Relation.ReflTransGen.tail
          (Relation.ReflTransGen.tail
            (Relation.ReflTransGen.tail Relation.ReflTransGen.refl step_engC1)
            step_engC2)
          step_engC3)
        step_engC4)
      step_engC5)
    step_engC6

/-- C6: REFUTED — the claimed single-generation invariant fails on the code:
a configuration with TWO generations simultaneously in flight is reachable
(session a completes while a second batch for a and a queued session b are
pending; the re-entrant `enqueueFlush` inside `processFlushQueue` starts b's
generation and the resumed outer while-loop then also starts a's). -/
theorem c6_single_generation_violated :
    ∃ c : EngineConfig, engineReachable c ∧ 2 ≤ c.tasks.length :=
  ⟨engC6, reach_engC6, by decide⟩

theorem step_pseC1 : EngineStep ({} : EngineConfig) pseC1 :=
  EngineStep.addEventStep (engEvent "a") {}

theorem step_pseC2 : EngineStep pseC1 pseC2 :=
  EngineStep.fireMax "codex:a" pseC1 ((alGet "codex:a" pseC1.sessions).getD {})
    (by decide) (by decide)

theorem step_pseC3 : EngineStep pseC2 pseC3 :=
  EngineStep.addEventStep (engEvent "b") pseC2

theorem step_pseC4 : EngineStep pseC3 pseC4 :=
  EngineStep.fireMax "codex:b" pseC3 ((alGet "codex:b" pseC3.sessions).getD {})
    (by decide) (by decide)

theorem step_pseC5 : EngineStep pseC4 pseC5 :=
  EngineStep.pauseStep pseC4

theorem step_pseC6 : EngineStep pseC5 pseC6 :=
  EngineStep.complete "codex:a" [engEvent "a"] "text" true pseC5 (by decide)

theorem reach_pseC5 : engineReachable pseC5 :=
  Relation.ReflTransGen.tail
    (Relation.ReflTransGen.tail
      (Relation.ReflTransGen.tail
        (Relation.ReflTransGen.tail
          (Relation.ReflTransGen.tail Relation.ReflTransGen.refl step_pseC1)
          step_pseC2)
        step_pseC3)
      step_pseC4)
    step_pseC5

/-- C8: REFUTED — `pause()` only sets the flag: a reachable paused
configuration still has a non-empty flush queue (the claim says pausing
clears the pending queue), and completing the in-flight generation starts a
NEW generation batch while the engine is still paused (the claim says no new
batch is queued for generation until resume). -/
theorem c8_pause_cancellation_violated :
    ∃ c c' : EngineConfig,
      engineReachable c ∧ c.paused = true ∧ c.flushQueue ≠ []
        ∧ EngineStep c c' ∧ c'.paused = true
        ∧ ∃ kb, kb ∈ c'.tasks ∧ kb ∉ c.tasks :=
  ⟨pseC5, pseC6, reach_pseC5, by decide, by decide, step_pseC6, by decide,
    ("codex:b", [engEvent "b"]), by decide, by decide⟩

/-- C10: for every `tool_result` or `meta` event, `addEvent` returns the
configuration unchanged — no queue append, no timer change, no flush — and
consequently in every reachable configuration no pending session queue and
no in-flight generation batch contains such an event. -/
theorem c10_tool_result_meta_frame (e : KEvent) (c : EngineConfig) (h : isSkippedType e) :
    addEvent e c = c
    ∧ (∀ c', engineReachable c' →
        (∀ ks ∈ c'.sessions, ∀ ev ∈ (ks : String × SessState).2.events, ¬ isSkippedType ev)
        ∧ (∀ kb ∈ c'.tasks, ∀ ev ∈ (kb : String × List KEvent).2, ¬ isSkippedType ev)) := by
  constructor
  · unfold addEvent
    by_cases hp : c.paused
    · rw [if_pos hp]
    · rw [if_neg hp]
      rw [if_pos (show (decide (e.type = EType.tool_result) || decide (e.type = EType.meta)) = true
        by rcases h with h | h <;> simp [h])]
  · intro c' hre
    exact engineReachable_clean c' hre

theorem c10_tool_result_meta_frame_witness :
    isSkippedType (sampleEvent .codex "s" .meta {})
    ∧ (addEvent (sampleEvent .codex "s" .meta {}) engC1 = engC1
       ∧ (∀ c', engineReachable c' →
           (∀ ks ∈ c'.sessions, ∀ ev ∈ (ks : String × SessState).2.events, ¬ isSkippedType ev)
           ∧ (∀ kb ∈ c'.tasks, ∀ ev ∈ (kb : String × List KEvent).2, ¬ isSkippedType ev))) :=
  ⟨Or.inr rfl, c10_tool_result_meta_frame (sampleEvent .codex "s" .meta {}) engC1 (Or.inr rfl)⟩


end Kibitz
